import Mathlib

/-!
Verification of the evias/nem2pay payment backend against its design notes.

The development shallowly embeds the JavaScript sources:

* core/helpers.js (the blockchain service: transaction decoder and mosaic
  extractor);
* core/payments-protocol.js (the PaymentsProtocol: reconciliation sweep,
  bot status-update deduplication, invoice status updates, success
  notification);
* core/database.js (the NEMPaymentChannel invoice model, in particular
  getTotalIncoming).

Machine integers are modelled as Nat: every amount in the sources is a
non-negative integer count of micro-XEM base units (the mongoose schema
declares them Number with min 0) far below 2^53, so JavaScript number
arithmetic on them is exact integer arithmetic. JavaScript objects used
as string-keyed dictionaries are modelled as association lists. Fallible
code paths (reads of properties of undefined, calls of undefined values,
references to undeclared identifiers) are modelled with Except.
-/

namespace Nem2Pay

/-! ## String-keyed dictionaries (JavaScript objects used as maps) -/

/-- Lookup in an association list; models reading obj[key] /
obj.hasOwnProperty(key) on a JavaScript object used as a dictionary. -/
def alookup {α : Type} : List (String × α) → String → Option α
  | [], _ => none
  | (k, v) :: rest, key => if k = key then some v else alookup rest key

/-- Assignment obj[key] = v on a JavaScript object used as a dictionary:
replaces the binding when the key is present, appends it otherwise. -/
def aset {α : Type} (key : String) (v : α) : List (String × α) → List (String × α)
  | [] => [(key, v)]
  | (k, w) :: rest => if k = key then (key, v) :: rest else (k, w) :: aset key v rest

/-- JavaScript String.prototype.toUpperCase over the ASCII alphabet of
invoice numbers and transfer messages (a configured prefix, digits,
dashes): upper-cases each character. -/
def jsToUpperCase (s : String) : String := String.mk (s.data.map Char.toUpper)

/-! ## Transaction type constants (NEM SDK model.transactionTypes) -/

/-- nem.model.transactionTypes.transfer -/
def transferType : Nat := 257

/-- nem.model.transactionTypes.multisigTransaction -/
def multisigTransactionType : Nat := 4100

/-! ## Invoice records (core/database.js, NEMPaymentChannel schema) -/

/-- The NEMPaymentChannel invoice document (core/database.js lines 51-65),
restricted to the fields the verified components read or write. The
`dirty` flag is the extra field the reconciliation write-back sets. -/
structure Invoice where
  number : String
  payerXEM : String
  recipientXEM : String
  amount : Nat
  amountPaid : Nat
  amountUnconfirmed : Nat
  status : String
  isPaid : Bool
  paidAt : Option Nat
  dirty : Bool
deriving DecidableEq

/-- NEMPaymentChannel.methods.getTotalIncoming (core/database.js lines
95-97): this.amountPaid + this.amountUnconfirmed. -/
def getTotalIncoming (inv : Invoice) : Nat :=
  inv.amountPaid + inv.amountUnconfirmed

/-! ## Transaction hash accessor (core/helpers.js, getTransactionHash)

A TransactionMetaDataPair from the NEM API always carries the meta.hash
and meta.innerHash wrapper objects (the API serialises innerHash as an
empty object for non-multisig transactions); the data payload inside a
wrapper may be absent. The model therefore gives each wrapper an
optional data field; a missing payload reads as undefined (none), which
is what meta.hash.data / meta.innerHash.data evaluate to on such input. -/

/-- A hash wrapper object of a TransactionMetaDataPair: hash or
innerHash, whose data payload may be absent. -/
structure HashContainer where
  data : Option String
deriving DecidableEq

/-- The meta part of a TransactionMetaDataPair. -/
structure TmdpMeta where
  id : Nat
  hash : HashContainer
  innerHash : HashContainer
deriving DecidableEq

/-- A TransactionMetaDataPair as read by getTransactionHash (its
transaction part is bound but never used by that accessor and is
omitted here). -/
structure TransactionMetaDataPair where
  meta : TmdpMeta
deriving DecidableEq

/-- JavaScript truthiness of meta.innerHash.data combined with the
nonzero length test of the source guard: undefined and the empty string
are falsy, a non-empty string has nonzero length. -/
def truthyNonEmpty : Option String → Bool
  | none => false
  | some s => s ≠ ""

/-- core/helpers.js lines 121-130: getTransactionHash. Reads
meta.hash.data, and replaces it by meta.innerHash.data when inner is
true and the inner hash data is truthy with nonzero length. A missing
payload makes the result none (undefined), never an error. -/
def getTransactionHash (t : TransactionMetaDataPair) (inner : Bool) : Option String :=
  let trxHash := t.meta.hash.data
  if inner && truthyNonEmpty t.meta.innerHash.data then
    t.meta.innerHash.data
  else
    trxHash

/-! ## Mosaic extractor (core/helpers.js, extractMosaicFromTransactionData_) -/

/-- A mosaicId of a mosaic attachment. -/
structure MosaicId where
  namespaceId : String
  name : String
deriving DecidableEq

/-- One entry of a transaction's mosaics array. -/
structure MosaicAttachment where
  mosaicId : MosaicId
  quantity : Nat
deriving DecidableEq

/-- The inner transaction of a multisig envelope (trxContent.otherTrans),
restricted to the fields the extractor reads. -/
structure TrxPart where
  recipient : String
  amount : Nat
  mosaics : Option (List MosaicAttachment)
deriving DecidableEq

/-- A transaction content object (TransactionMetaDataPair.transaction)
as read by the extractor: its own recipient/amount/mosaics fields plus
an optional otherTrans for multisig envelopes. -/
structure TrxContent where
  type : Nat
  recipient : String
  amount : Nat
  mosaics : Option (List MosaicAttachment)
  otherTrans : Option TrxPart
deriving DecidableEq

/-- The two value shapes extractMosaicFromTransactionData_ returns: the
object-shaped result (recipient none models the literal recipient:
false of the not-found object) or the bare boolean false returned by
the missing-asset-list branches. -/
inductive ExtractResult where
  | obj (totalMosaic : Nat) (recipient : Option String)
  | jsFalse
deriving DecidableEq

/-- The slug mosaic.mosaicId.namespaceId + ":" + mosaic.mosaicId.name
built in the extractor loop. -/
def mosaicSlug (m : MosaicAttachment) : String :=
  m.mosaicId.namespaceId ++ ":" ++ m.mosaicId.name

/-- The extractor loop (core/helpers.js lines 302-325): scans the mosaic
attachments for the first entry whose slug equals slugToExtract. On a
match, mosMultiply = trxAmount > 0 ? parseInt(trxAmount / 10^div) : 1
and totalMosaic = mosMultiply * quantity. parseInt of the quotient is
flooring division here: trxAmount is the integer micro-XEM multiplier
field, so for the divisibilities the application uses (6 and below) the
quotient's decimal string never takes exponential form, and parseInt of
it is its floor; Nat division is that floor. The exhausted scan returns
the not-found object. -/
def scanMosaics (slugToExtract : String) (divisibility : Nat) (recipient : String)
    (trxAmount : Nat) : List MosaicAttachment → ExtractResult
  | [] => ExtractResult.obj 0 none
  | m :: rest =>
    if slugToExtract ≠ mosaicSlug m then
      scanMosaics slugToExtract divisibility recipient trxAmount rest
    else
      let mosAmount := m.quantity
      let mosMultiply := if 0 < trxAmount then trxAmount / 10 ^ divisibility else 1
      ExtractResult.obj (mosMultiply * mosAmount) (some recipient)

/-- core/helpers.js lines 264-325: extractMosaicFromTransactionData_.
The first guard returns the not-found object when trxContent is missing
or slugToExtract is empty. The multisig branch returns the bare boolean
false when otherTrans or otherTrans.mosaics is undefined; the transfer
branch returns the bare boolean false when the content's own mosaics
array is undefined or empty. Otherwise the mosaic scan runs on the
selected (mosaics, recipient, amount) triple. -/
def extractMosaicFromTransactionData_ (trxContent : Option TrxContent)
    (slugToExtract : String) (divisibility : Nat) : ExtractResult :=
  match trxContent with
  | none => ExtractResult.obj 0 none
  | some c =>
    if slugToExtract = "" then ExtractResult.obj 0 none
    else if c.type = multisigTransactionType then
      match c.otherTrans with
      | none => ExtractResult.jsFalse
      | some ot =>
        match ot.mosaics with
        | none => ExtractResult.jsFalse
        | some ms => scanMosaics slugToExtract divisibility ot.recipient ot.amount ms
    else
      match c.mosaics with
      | none => ExtractResult.jsFalse
      | some ms =>
        if ms.isEmpty then ExtractResult.jsFalse
        else scanMosaics slugToExtract divisibility c.recipient c.amount ms

/-- The (mosaics, recipient, amount) triple the extractor selects before
its scan loop, none when the source instead returns the bare boolean
false; introduced to state theorems uniformly over the multisig and
transfer branches. -/
def extractorParts (c : TrxContent) : Option (List MosaicAttachment × String × Nat) :=
  if c.type = multisigTransactionType then
    match c.otherTrans with
    | none => none
    | some ot =>
      match ot.mosaics with
      | none => none
      | some ms => some (ms, ot.recipient, ot.amount)
  else
    match c.mosaics with
    | none => none
    | some ms => if ms.isEmpty then none else some (ms, c.recipient, c.amount)

/-- The quantity formula claimed by the specification for a matched
mosaic entry: entry.quantity times max(1, floor(amount / 10^div)).
Stated from the specification's words, to be compared with the code. -/
def specMosaicQuantity (entryQuantity trxAmount divisibility : Nat) : Nat :=
  entryQuantity * max 1 (trxAmount / 10 ^ divisibility)

/-- The multiplier the code actually computes on a matched mosaic entry:
floor(amount / 10^div) when the amount field is positive, 1 when it is
zero. -/
def codeMosaicMultiplier (trxAmount divisibility : Nat) : Nat :=
  if 0 < trxAmount then trxAmount / 10 ^ divisibility else 1

/-! ## Bot status updates (core/payments-protocol.js, storeInvoiceStatusUpdate)

The parsed payload of a nembot_payment_status_update event. The guard
`else if (data.amountPaid)` tests JavaScript truthiness of the field, so
an absent amountPaid behaves exactly like 0 and both are modelled as 0;
amountUnconfirmed is assigned unconditionally in the unconfirmed branch
and is modelled as the number the bot sent. -/

/-- A parsed bot status-update payload. -/
structure BotStatusData where
  message : Option String
  sender : Option String
  status : String
  amountPaid : Nat
  amountUnconfirmed : Nat
deriving DecidableEq

/-- core/payments-protocol.js lines 503-513: the mutation
storeInvoiceStatusUpdate applies to the invoice it matched. status is
assigned unconditionally; the unconfirmed branch assigns
amountUnconfirmed, otherwise a truthy amountPaid is assigned; a paid
status additionally sets isPaid and paidAt (now is the current clock
reading). -/
def applyStatusUpdate (data : BotStatusData) (invoice : Invoice) (now : Nat) : Invoice :=
  let inv1 : Invoice := { invoice with status := data.status }
  let inv2 : Invoice :=
    if data.status = "unconfirmed" then
      { inv1 with amountUnconfirmed := data.amountUnconfirmed }
    else if data.amountPaid ≠ 0 then
      { inv1 with amountPaid := data.amountPaid }
    else inv1
  if data.status = "paid" then
    { inv2 with isPaid := true, paidAt := some now }
  else inv2

/-- core/payments-protocol.js lines 515-531: the save callback of
storeInvoiceStatusUpdate after a successful save. It returns early
unless the payload status is paid or unconfirmed, then early again
unless the updated invoice has isPaid set and getTotalIncoming at least
the requested amount; only then is processPaymentChannelSuccess
invoked. -/
def invokesSuccessPath (data : BotStatusData) (invoice : Invoice) (now : Nat) : Bool :=
  let inv := applyStatusUpdate data invoice now
  if data.status ≠ "paid" ∧ data.status ≠ "unconfirmed" then false
  else if inv.isPaid = false ∨ getTotalIncoming inv < inv.amount then false
  else true

/-! ## Checksum deduplication (core/payments-protocol.js, the
nembot_payment_status_update listener of startPaymentChannel) -/

/-- The observable effects of one delivery of a raw bot payload: the
nem2pay_payment_status_update event forwarded to the client socket, and
the storeInvoiceStatusUpdate invoice-store mutation. -/
inductive BotEffect where
  | forwardStatusUpdate (clientSocketId : String) (rawdata : String)
  | storeUpdate (rawdata : String)
deriving DecidableEq

/-- True on the forwarded-event effect. -/
def isForwardEffect : BotEffect → Bool
  | BotEffect.forwardStatusUpdate _ _ => true
  | BotEffect.storeUpdate _ => false

/-- True on the invoice-store mutation effect. -/
def isStoreEffect : BotEffect → Bool
  | BotEffect.forwardStatusUpdate _ _ => false
  | BotEffect.storeUpdate _ => true

/-- core/payments-protocol.js lines 423-453: the
nembot_payment_status_update listener. md5 stands for the CryptoJS MD5
content checksum of the raw payload bytes and parseJson for JSON.parse
(any fixed checksum function and any fixed parse outcome per payload:
the listener only compares checksums of byte-identical payloads, where
every function agrees with MD5, and only branches on whether the parse
throws). When the checksum is already recorded the listener returns
false with no effect. Otherwise JSON.parse runs at line 440 BEFORE the
checksum is recorded and before anything is forwarded or stored: a
parse failure propagates as the thrown SyntaxError with no state change
and no effect. On a successful parse the checksum is recorded (the
source stores the parsed payload, modelled by the raw string that
determines it), the status update is forwarded to the client socket and
storeInvoiceStatusUpdate is invoked. -/
def onBotStatusUpdate (md5 : String → String) (parseJson : String → Except String Unit)
    (byChecksum : List (String × String)) (clientSocketId rawdata : String) :
    Except String (List (String × String) × List BotEffect) :=
  let checksum := md5 rawdata
  match alookup byChecksum checksum with
  | some _ => Except.ok (byChecksum, [])
  | none =>
    match parseJson rawdata with
    | Except.error e => Except.error e
    | Except.ok _ =>
      Except.ok
        (aset checksum rawdata byChecksum,
         [BotEffect.forwardStatusUpdate clientSocketId rawdata,
          BotEffect.storeUpdate rawdata])

/-! ## Success notification (core/payments-protocol.js,
processPaymentChannelSuccess)

The emit argument at line 553 is JSON.stringify(clientData). The
identifier clientData is declared (var clientData = ...) only inside
the nembot_payment_status_update listener closure of
startPaymentChannel, which is not an enclosing scope of
processPaymentChannelSuccess; evaluating it there follows the scope
chain below and, failing, throws a ReferenceError. -/

/-- The identifiers in scope at the emit expression of
processPaymentChannelSuccess (line 553): its parameter and locals, the
enclosing PaymentsProtocol constructor's parameters and vars, the
module closure's vars, and the Node module globals. clientData is in
none of them. -/
def processSuccessScopeVars : List String :=
  ["paymentChannel", "self", "socketsForPayment", "i",
   "io", "logger", "chainDataLayer", "dataLayer",
   "paymentTransactionHistory_", "incomingStatusUpdates_",
   "PaymentsProtocol", "NEMBot_for_Payments", "botChannelSockets_",
   "config", "path", "CryptoJS", "__smartfilename",
   "require", "module", "exports", "__filename", "__dirname",
   "JSON", "process", "console", "Date", "Math"]

/-- Evaluation of an identifier against a scope chain: the value is
irrelevant here, only whether the lookup succeeds or throws a
ReferenceError. -/
def evalIdentifier (scope : List String) (name : String) : Except String Unit :=
  if name ∈ scope then Except.ok ()
  else Except.error ("ReferenceError: " ++ name ++ " is not defined")

/-- The emit loop of processPaymentChannelSuccess (lines 551-553): for
each registered channel it evaluates the emit payload
JSON.stringify(clientData) - which requires resolving clientData in the
scope chain - and, were that to succeed, would emit the
nem2pay_payment_success event to that channel's client socket. The
result lists the (clientSocketId, eventName) pairs actually emitted. -/
def emitSuccessLoop : List String → Except String (List (String × String))
  | [] => Except.ok []
  | c :: rest =>
    match evalIdentifier processSuccessScopeVars "clientData" with
    | Except.error e => Except.error e
    | Except.ok _ =>
      match emitSuccessLoop rest with
      | Except.error e => Except.error e
      | Except.ok tail => Except.ok ((c, "nem2pay_payment_success") :: tail)

/-- core/payments-protocol.js lines 545-555: processPaymentChannelSuccess.
botChannelSockets is the channel registry keyed by invoice number; each
registered entry's clientId is the target of one emit. When the invoice
number has no registry entry the function does nothing. -/
def processPaymentChannelSuccess (botChannelSockets : List (String × List String))
    (number : String) : Except String (List (String × String)) :=
  match alookup botChannelSockets number with
  | none => Except.ok []
  | some clients => emitSuccessLoop clients

/-! ## Pagination argument passing (core/payments-protocol.js,
fetchInvoicesRealHistory) -/

/-- The dynamically typed values that flow through
fetchInvoicesRealHistory's parameters. arrVal n is an array of length n
(the invoices array), numVal a transaction id, funVal a function (the
callback). -/
inductive JsVal where
  | undefined
  | nullVal
  | strVal (s : String)
  | numVal (n : Nat)
  | arrVal (n : Nat)
  | funVal
deriving DecidableEq

/-- Reading v.length inside the entry guard if (!invoices.length):
throws a TypeError on null or undefined, is the length for arrays and
strings, and is undefined (falsy) for numbers and functions. The Bool
is the truthiness of the length. -/
def jsLengthTruthy : JsVal → Except String Bool
  | JsVal.undefined => Except.error "TypeError: Cannot read property length of undefined"
  | JsVal.nullVal => Except.error "TypeError: Cannot read property length of null"
  | JsVal.strVal s => Except.ok (s.length ≠ 0)
  | JsVal.numVal _ => Except.ok false
  | JsVal.arrVal n => Except.ok (n ≠ 0)
  | JsVal.funVal => Except.ok false

/-- How far one invocation of fetchInvoicesRealHistory gets before its
first asynchronous step: it returns callback(false) on an empty
invoices value, throws, or proceeds to issue the gateway page request
account.transactions.incoming(endpoint, recipient, null, lastTrxRead)
with the recorded recipient and cursor arguments. -/
inductive FetchOutcome where
  | emptyReturn
  | proceeds (gatewayRecipient : JsVal) (gatewayCursor : JsVal)
  | thrown (e : String)
deriving DecidableEq

/-- core/payments-protocol.js lines 567-590: the synchronous entry of
fetchInvoicesRealHistory(recipient, invoices, lastTrxRead, callback) up
to the gateway request. if (!invoices.length) return callback(false) -
calling a non-function callback throws - else the gateway page request
is issued for recipient with cursor lastTrxRead. -/
def fetchInvoicesEntry (recipient invoices lastTrxRead callback : JsVal) : FetchOutcome :=
  match jsLengthTruthy invoices with
  | Except.error e => FetchOutcome.thrown e
  | Except.ok hasLen =>
    if hasLen = false then
      match callback with
      | JsVal.funVal => FetchOutcome.emptyReturn
      | _ => FetchOutcome.thrown "TypeError: callback is not a function"
    else FetchOutcome.proceeds recipient lastTrxRead

/-- The recursive pagination call at line 605:
self.fetchInvoicesRealHistory(invoices, lastTrxRead, callback) passes
three arguments into the four-parameter signature (recipient, invoices,
lastTrxRead, callback), so the recursive invocation receives recipient
:= invoices, invoices := lastTrxRead, lastTrxRead := callback and
callback := undefined. -/
def fetchRecursiveStep (invoices lastTrxRead callback : JsVal) : FetchOutcome :=
  fetchInvoicesEntry invoices lastTrxRead callback JsVal.undefined

/-! ## Reconciliation sweep (core/payments-protocol.js,
fetchInvoicesRealHistory and saveIncomingPaymentsHistory)

The sweep reads pages of raw TransactionMetaDataPair records. The
amount decoder getTransactionAmount returns a NUMBER on records without
mosaic attachments, but on mosaic transfers that carry the looked-up
mosaic it returns the string produced by toFixed (core/helpers.js line
237); the accumulator addition totalPaid += lastAmtRead (line 660) is
JavaScript +, which string-concatenates as soon as either operand is a
string. Decoded amounts and the running totals are therefore modelled
by a JavaScript-value type JsAmount (number or string), with JavaScript
addition and the ToNumber-based comparisons the write-back performs. A
multisig envelope's real data lives under otherTrans; reading it on an
envelope without otherTrans is a TypeError, modelled with Except. The
message field holds the hex-decoded plain text of the transfer message
payload (nem.utils.convert.hex2a applied to message.payload); an absent
payload reads as the empty string. -/

/-- A JavaScript value flowing through the sweep's amount positions:
the number or string that getTransactionAmount returns (numbers are
exact integers of micro-XEM here, far below 2^53). -/
inductive JsAmount where
  | num (n : Nat)
  | str (s : String)
deriving DecidableEq

/-- The decimal digits of a Nat, most significant first; fuel-driven
recursion (the fuel n+1 bounds the digit count) kept kernel-computable
for witness evaluation. -/
def natDigitsAux : Nat → Nat → List Char
  | 0, _ => []
  | fuel + 1, n =>
    if n < 10 then [Char.ofNat (48 + n)]
    else natDigitsAux fuel (n / 10) ++ [Char.ofNat (48 + n % 10)]

/-- The decimal numeral of a Nat, as JavaScript renders an
integer-valued number when coercing it to a string. -/
def natToDecimalString (n : Nat) : String := String.mk (natDigitsAux (n + 1) n)

/-- Left-pads a numeral with zeros to d digits. -/
def leftPadZeros (d : Nat) (s : String) : String :=
  if s.length < d then String.mk (List.replicate (d - s.length) '0') ++ s else s

/-- The string (multiplier * quantity).toFixed(divisibility) of
core/helpers.js line 237, where multiplier = amount / 10^divisibility:
the value amount * quantity / 10^divisibility rendered with exactly
divisibility fraction digits. This rendering is exact whenever the
double-precision product is exact, which holds on the whole-unit
multiplier records of the scenarios and counterexamples below. -/
def toFixedString (amount quantity divisibility : Nat) : String :=
  let scaled := amount * quantity
  natToDecimalString (scaled / 10 ^ divisibility)
    ++ (if divisibility = 0 then ""
        else "." ++ leftPadZeros divisibility (natToDecimalString (scaled % 10 ^ divisibility)))

/-- JavaScript + on the accumulator (line 660): numeric addition when
both operands are numbers, string concatenation - coercing a number
operand to its decimal numeral - as soon as either is a string. -/
def jsAdd : JsAmount → JsAmount → JsAmount
  | JsAmount.num a, JsAmount.num b => JsAmount.num (a + b)
  | JsAmount.num a, JsAmount.str b => JsAmount.str (natToDecimalString a ++ b)
  | JsAmount.str a, JsAmount.num b => JsAmount.str (a ++ natToDecimalString b)
  | JsAmount.str a, JsAmount.str b => JsAmount.str (a ++ b)

/-- The numeric value of a decimal digit string; none when a non-digit
occurs. The empty string reads as 0, as ToNumber of an empty numeral
part does. -/
def decDigitsVal (cs : List Char) : Option Nat :=
  cs.foldl
    (fun acc c =>
      match acc with
      | none => none
      | some n => if c.isDigit then some (n * 10 + (c.toNat - 48)) else none)
    (some 0)

/-- ToNumber on the strings the accumulator can hold: a sign-free
decimal numeral with at most one dot reads as (integer part, value of
the fraction digits); anything else - such as the two-dot strings two
concatenated toFixed results produce - is NaN, modelled none. -/
def jsDecimalValue (cs : List Char) : Option (Nat × Nat) :=
  let intPart := cs.takeWhile (fun c => c ≠ '.')
  let rest := cs.dropWhile (fun c => c ≠ '.')
  match rest with
  | [] => (decDigitsVal intPart).map (fun n => (n, 0))
  | _ :: frac =>
    if frac.contains '.' then none
    else
      match decDigitsVal intPart, decDigitsVal frac with
      | some i, some f => some (i, f)
      | _, _ => none

/-- JavaScript >= between the write-back's amountPaid value and the
numeric requested amount (line 674): numeric comparison for numbers; a
string operand goes through ToNumber first and a NaN conversion
compares false. The fraction of a parsed decimal is below one, so
comparison against an integer needs only the integer part. -/
def jsGeNat : JsAmount → Nat → Bool
  | JsAmount.num a, n => n ≤ a
  | JsAmount.str s, n =>
    match jsDecimalValue s.data with
    | none => false
    | some (i, _) => n ≤ i

/-- JavaScript > between the write-back's amountPaid value and the
numeric requested amount (line 678), with the same ToNumber rule;
strictness additionally looks at whether the fraction is nonzero. -/
def jsGtNat : JsAmount → Nat → Bool
  | JsAmount.num a, n => n < a
  | JsAmount.str s, n =>
    match jsDecimalValue s.data with
    | none => false
    | some (i, f) => (n < i) || ((n == i) && (f ≠ 0))

/-- The fields of a transaction content object (or of its otherTrans)
that the sweep decodes, including the mosaic attachments list. -/
structure RPart where
  amount : Nat
  message : Option String
  mosaics : Option (List MosaicAttachment)
deriving DecidableEq

/-- A transaction content object as read by the sweep decoders: its own
amount, message and mosaics fields plus an optional otherTrans. -/
structure RContent where
  type : Nat
  amount : Nat
  message : Option String
  mosaics : Option (List MosaicAttachment)
  otherTrans : Option RPart
deriving DecidableEq

/-- The meta part of a sweep record; gateway records carry their hash
(meta.hash.data) and chain id. -/
structure RMeta where
  id : Nat
  hash : String
deriving DecidableEq

/-- A TransactionMetaDataPair as consumed by saveIncomingPaymentsHistory. -/
structure RTx where
  meta : RMeta
  transaction : RContent
deriving DecidableEq

/-- core/helpers.js lines 148-179: getTransactionMessage (without the
doDecrypt branch, which the sweep does not request). For a multisig
type the real data is content.otherTrans - undefined there is a
TypeError - and a missing message payload decodes to the empty
string. -/
def getTransactionMessageE (t : RTx) : Except String String :=
  let content := t.transaction
  if content.type = multisigTransactionType then
    match content.otherTrans with
    | none => Except.error "TypeError: Cannot read property message of undefined"
    | some real =>
      match real.message with
      | none => Except.ok ""
      | some payload => Except.ok payload
  else
    match content.message with
    | none => Except.ok ""
    | some payload => Except.ok payload

/-- mosaicSlug.replace of the trailing colon-segment (the regex of
core/helpers.js line 222, a colon followed by a non-empty colon-free
tail anchored at the end): drops that last segment and its colon;
unchanged when no such segment exists. -/
def slugNamespacePart (slug : String) : String :=
  let rev := slug.data.reverse
  let seg := rev.takeWhile (fun c => c ≠ ':')
  match rev.dropWhile (fun c => c ≠ ':') with
  | [] => slug
  | _ :: pre => if seg.isEmpty then slug else String.mk pre.reverse

/-- mosaicSlug.replace of the leading colon-free segment plus colon
(the regex of core/helpers.js line 223, anchored at the start):
drops that prefix; unchanged when no such prefix exists. -/
def slugNamePart (slug : String) : String :=
  let pre := slug.data.takeWhile (fun c => c ≠ ':')
  match slug.data.dropWhile (fun c => c ≠ ':') with
  | [] => slug
  | _ :: tail => if pre.isEmpty then slug else String.mk tail

/-- The mosaic loop of getTransactionAmount (core/helpers.js lines
229-241): the first attachment whose mosaicId matches
(lookupNS, lookupMos) yields the STRING
(multiplier * quantity).toFixed(divisibility); an exhausted loop yields
the number 0. -/
def amountFromMosaics (amount divisibility : Nat) (lookupNS lookupMos : String) :
    List MosaicAttachment → JsAmount
  | [] => JsAmount.num 0
  | m :: rest =>
    if m.mosaicId.namespaceId = lookupNS ∧ m.mosaicId.name = lookupMos then
      JsAmount.str (toFixedString amount m.quantity divisibility)
    else amountFromMosaics amount divisibility lookupNS lookupMos rest

/-- core/helpers.js lines 214-249: getTransactionAmount. The real
content of a multisig type is otherTrans - undefined there is a
TypeError when isMosaic reads its mosaics field (line 220). When the
real content carries a non-empty mosaics array, the amount field is a
multiplier and the slug-matched attachment's toFixed STRING is
returned (number 0 when no attachment matches). Without mosaics, a
slug other than nem:xem yields the number 0, else the numeric amount
field. -/
def getTransactionAmountE (t : RTx) (mosaicSlug : String) (divisibility : Nat) :
    Except String JsAmount :=
  let content := t.transaction
  match (if content.type = multisigTransactionType then content.otherTrans
         else some { amount := content.amount, message := content.message,
                     mosaics := content.mosaics }) with
  | none => Except.error "TypeError: Cannot read property mosaics of undefined"
  | some realContent =>
    let isMosaic := match realContent.mosaics with
      | none => false
      | some ms => decide (0 < ms.length)
    let lookupNS := slugNamespacePart mosaicSlug
    let lookupMos := slugNamePart mosaicSlug
    if isMosaic then
      Except.ok (amountFromMosaics realContent.amount divisibility lookupNS lookupMos
        (realContent.mosaics.getD []))
    else if mosaicSlug ≠ "nem:xem" then Except.ok (JsAmount.num 0)
    else Except.ok (JsAmount.num realContent.amount)

/-- core/helpers.js lines 138-140: getTransactionId. -/
def getTransactionId (t : RTx) : Nat := t.meta.id

/-- getTransactionHash with the default inner = false (core/helpers.js
line 125) on a sweep record: meta.hash.data, present on gateway
records. -/
def rtxHash (t : RTx) : String := t.meta.hash

/-- The decoded message of a record, as a total function for stating
sums over matched records; agrees with getTransactionMessageE wherever
that succeeds. -/
def decodedMessage (t : RTx) : String :=
  match getTransactionMessageE t with
  | Except.ok m => m
  | Except.error _ => ""

/-- The decoded nem:xem amount of a record at divisibility 6 (the
sweep's call at line 635), as a total function; agrees with
getTransactionAmountE wherever that succeeds. -/
def decodedAmount (t : RTx) : JsAmount :=
  match getTransactionAmountE t "nem:xem" 6 with
  | Except.ok n => n
  | Except.error _ => JsAmount.num 0

/-- True when a record's decoded amount is a JavaScript number (it is a
toFixed string exactly on mosaic transfers carrying a nem:xem
attachment). -/
def hasNumericAmount (t : RTx) : Bool :=
  match decodedAmount t with
  | JsAmount.num _ => true
  | JsAmount.str _ => false

/-- The numeric denomination of a decoded amount, for stating sums:
the number itself, 0 on a string. -/
def decodedAmountNat (t : RTx) : Nat :=
  match decodedAmount t with
  | JsAmount.num n => n
  | JsAmount.str _ => 0

/-- The sweep's type filter (lines 643-647): only transfer and multisig
transactions are considered. -/
def isRelevantType (t : RTx) : Bool :=
  t.transaction.type == transferType || t.transaction.type == multisigTransactionType

/-- A record is matched to the invoice accumulator key num when it
passes the type filter and its upper-cased decoded message equals num
(invoice accumulator keys are upper-cased invoice numbers). -/
def matchesInvoice (num : String) (t : RTx) : Bool :=
  isRelevantType t && jsToUpperCase (decodedMessage t) == num

/-- The records of a page matched to accumulator key num. -/
def matchedTxs (num : String) (txs : List RTx) : List RTx :=
  txs.filter (matchesInvoice num)

/-- The numeric sum of the decoded amounts of the records of a page
matched to accumulator key num (the sum the specification speaks of;
it coincides with the accumulator only when every matched amount is a
number). -/
def matchedSum (num : String) (txs : List RTx) : Nat :=
  ((matchedTxs num txs).map decodedAmountNat).sum

/-- The accumulator value after JavaScript-adding the decoded amounts
of the records ts, in scan order, onto the prior value z - the value
totalPaid += builds. -/
def accumulateAmounts (z : JsAmount) (ts : List RTx) : JsAmount :=
  ts.foldl (fun acc t => jsAdd acc (decodedAmount t)) z

/-- The invoice document as the sweep sees and mutates it in memory:
number and requested amount from the store, and the fields the
write-back assigns - amountPaid holds whatever value is assigned,
including a toFixed-concatenation string, hence JsAmount. -/
structure RInvoice where
  number : String
  amount : Nat
  amountPaid : JsAmount
  isPaid : Bool
  status : String
  dirty : Bool
deriving DecidableEq

/-- One entry of paymentTransactionHistory_.byInvoice: the matched
records, their running total (a JavaScript value: number, or string
once a toFixed amount was concatenated in), and the invoice
reference. -/
structure HistEntry where
  transactions : List RTx
  totalPaid : JsAmount
  invoice : RInvoice
deriving DecidableEq

/-- The process-wide accumulator paymentTransactionHistory_ (line 374):
byInvoice keyed by upper-cased invoice number, byHash the set of hashes
already read (the source stores true under each hash key; the key list
is the set). -/
structure PayHistory where
  byInvoice : List (String × HistEntry)
  byHash : List String
deriving DecidableEq

/-- The accumulator at PaymentsProtocol construction: both maps empty. -/
def emptyHistory : PayHistory := { byInvoice := [], byHash := [] }

/-- The value saveIncomingPaymentsHistory returns: the literal false of
the early hash-collision return, or lastTrxRead (null when the page was
empty, else the id of the last record read). -/
inductive SaveResult where
  | stopped
  | lastId (id : Option Nat)
deriving DecidableEq

/-- The scan loop of saveIncomingPaymentsHistory (lines 626-663). Per
record, in source order: record the id, hash, decoded message and
decoded amount (both decoders run before any check and may throw);
return false when the hash was already seen; mark the hash; skip
non-transfer non-multisig types; skip messages whose upper-cased text
is no accumulator key; otherwise append the record and add its amount
to the keyed entry. The exhausted loop returns the last id read. -/
def scanLoop : PayHistory → Option Nat → List RTx → Except String (PayHistory × SaveResult)
  | h, acc, [] => Except.ok (h, SaveResult.lastId acc)
  | h, _, t :: rest =>
    let lastTrxRead := some (getTransactionId t)
    let lastTrxHash := rtxHash t
    match getTransactionMessageE t with
    | Except.error e => Except.error e
    | Except.ok lastMsgRead =>
      match getTransactionAmountE t "nem:xem" 6 with
      | Except.error e => Except.error e
      | Except.ok lastAmtRead =>
        if lastTrxHash ∈ h.byHash then Except.ok (h, SaveResult.stopped)
        else
          let h1 : PayHistory := { h with byHash := h.byHash ++ [lastTrxHash] }
          if isRelevantType t = false then scanLoop h1 lastTrxRead rest
          else
            match alookup h1.byInvoice (jsToUpperCase lastMsgRead) with
            | none => scanLoop h1 lastTrxRead rest
            | some entry =>
              let entry1 : HistEntry := { entry with
                transactions := entry.transactions ++ [t],
                totalPaid := jsAdd entry.totalPaid lastAmtRead }
              scanLoop { h1 with byInvoice := aset (jsToUpperCase lastMsgRead) entry1 h1.byInvoice }
                lastTrxRead rest

/-- The write-back (lines 665-686) applied to one accumulator entry:
amountPaid := totalPaid (the raw JavaScript value, possibly a string);
when amountPaid >= amount under JavaScript comparison (ToNumber on a
string operand), isPaid := true and status := paid, overwritten by
overpaid when amountPaid > amount; the invoice is marked dirty. -/
def writeBackEntry (e : HistEntry) : HistEntry :=
  let inv0 := e.invoice
  let inv1 : RInvoice := { inv0 with amountPaid := e.totalPaid }
  let inv2 : RInvoice :=
    if jsGeNat inv1.amountPaid inv1.amount then
      { inv1 with isPaid := true,
                  status := if jsGtNat inv1.amountPaid inv1.amount then "overpaid" else "paid" }
    else inv1
  { e with invoice := { inv2 with dirty := true } }

/-- The write-back loop over every byInvoice entry. -/
def writeBack (h : PayHistory) : PayHistory :=
  { h with byInvoice := h.byInvoice.map (fun p => (p.1, writeBackEntry p.2)) }

/-- core/payments-protocol.js lines 619-692: saveIncomingPaymentsHistory.
The scan loop runs first; its early return false skips the write-back
entirely, the completed scan is followed by the write-back over every
accumulator entry and returns lastTrxRead. -/
def saveIncomingPaymentsHistory (h : PayHistory) (txs : List RTx) :
    Except String (PayHistory × SaveResult) :=
  match scanLoop h none txs with
  | Except.error e => Except.error e
  | Except.ok (h1, SaveResult.stopped) => Except.ok (h1, SaveResult.stopped)
  | Except.ok (h1, SaveResult.lastId a) => Except.ok (writeBack h1, SaveResult.lastId a)

/-- The accumulator initialisation of fetchInvoicesRealHistory (lines
573-584): for each invoice, when its upper-cased number is not yet a
byInvoice key, a fresh entry (no transactions, totalPaid the number 0,
the invoice) is added; existing entries are kept. -/
def initAccumulators (invoices : List RInvoice) (h : PayHistory) : PayHistory :=
  invoices.foldl
    (fun acc inv =>
      match alookup acc.byInvoice (jsToUpperCase inv.number) with
      | some _ => acc
      | none =>
        { acc with byInvoice :=
            acc.byInvoice ++ [((jsToUpperCase inv.number),
              { transactions := [], totalPaid := JsAmount.num 0, invoice := inv })] })
    h

/-- The accumulator-state effect of one invocation of
fetchInvoicesRealHistory (lines 567-617) whose gateway request returns
page: an empty invoices argument returns immediately; otherwise the
accumulators are initialised and saveIncomingPaymentsHistory processes
the page. The recursive pagination call at line 605 passes shifted
arguments (see fetchRecursiveStep) and throws inside the promise
handler before issuing any request or touching the accumulator, and the
error is caught at line 614, so an invocation's whole state effect is
the initialisation plus one saveIncomingPaymentsHistory run. -/
def sweepOnce (h : PayHistory) (invoices : List RInvoice) (page : List RTx) :
    Except String PayHistory :=
  if invoices.isEmpty then Except.ok h
  else
    match saveIncomingPaymentsHistory (initAccumulators invoices h) page with
    | Except.error e => Except.error e
    | Except.ok (h1, _) => Except.ok h1

/-! ## Concrete records used by witnesses and counterexamples -/

/-- A mosaic attachment carrying five units of ns:heart. -/
def mosHeart5 : MosaicAttachment :=
  { mosaicId := { namespaceId := "ns", name := "heart" }, quantity := 5 }

/-- A transfer carrying five ns:heart with a positive multiplier field
of 500000 micro-XEM, below one whole unit at divisibility 6. -/
def contentC2 : TrxContent :=
  { type := transferType, recipient := "RCX", amount := 500000,
    mosaics := some [mosHeart5], otherTrans := none }

/-- The specification's scenario: a transfer carrying five ns:heart
with multiplier field 2000000 micro-XEM. -/
def contentC2W : TrxContent :=
  { type := transferType, recipient := "RW", amount := 2000000,
    mosaics := some [mosHeart5], otherTrans := none }

/-- A multisig envelope without an inner transaction. -/
def contentC8 : TrxContent :=
  { type := multisigTransactionType, recipient := "RC8", amount := 0,
    mosaics := none, otherTrans := none }

/-- An invoice already fully paid and marked as such. -/
def invC6 : Invoice :=
  { number := "IV-9", payerXEM := "PAYER9", recipientXEM := "RCPT9", amount := 100,
    amountPaid := 100, amountUnconfirmed := 0, status := "paid", isPaid := true,
    paidAt := some 5, dirty := false }

/-- An unconfirmed bot payload for invoice IV-9. -/
def dataC6 : BotStatusData :=
  { message := some "IV-9", sender := none, status := "unconfirmed",
    amountPaid := 0, amountUnconfirmed := 40 }

/-- A not-yet-paid invoice over 100 units. -/
def invC6W : Invoice :=
  { number := "IV-10", payerXEM := "PAYER10", recipientXEM := "RCPT10", amount := 100,
    amountPaid := 30, amountUnconfirmed := 0, status := "paid_partly", isPaid := false,
    paidAt := none, dirty := false }

/-- An unconfirmed bot payload for invoice IV-10. -/
def dataC6W : BotStatusData :=
  { message := some "IV-10", sender := none, status := "unconfirmed",
    amountPaid := 0, amountUnconfirmed := 50 }

/-- A paid bot payload settling invoice IV-11 in full. -/
def dataC10W : BotStatusData :=
  { message := some "IV-11", sender := none, status := "paid",
    amountPaid := 200, amountUnconfirmed := 0 }

/-- Invoice IV-11, requested amount 200, nothing received yet. -/
def invC10W : Invoice :=
  { number := "IV-11", payerXEM := "PAYER11", recipientXEM := "RCPT11", amount := 200,
    amountPaid := 0, amountUnconfirmed := 0, status := "not_paid", isPaid := false,
    paidAt := none, dirty := false }

/-- A TransactionMetaDataPair with neither hash payload present. -/
def tmdpNoHashes : TransactionMetaDataPair :=
  { meta := { id := 77, hash := { data := none }, innerHash := { data := none } } }

/-- The specification's scenario invoice: 1000000 micro-XEM requested
under number N1. -/
def invoiceN1 : RInvoice :=
  { number := "N1", amount := 1000000, amountPaid := JsAmount.num 0,
    isPaid := false, status := "not_paid", dirty := false }

/-- A plain transfer of 400000 micro-XEM whose message is the invoice
number n1. -/
def txPay400 : RTx :=
  { meta := { id := 1, hash := "HASH-A" },
    transaction := { type := transferType, amount := 400000,
                     message := some "n1", mosaics := none, otherTrans := none } }

/-- A plain transfer of 600000 micro-XEM whose message is the invoice
number N1. -/
def txPay600 : RTx :=
  { meta := { id := 2, hash := "HASH-B" },
    transaction := { type := transferType, amount := 600000,
                     message := some "N1", mosaics := none, otherTrans := none } }

/-- A mosaic transfer with message N1 carrying 600000 micro-XEM worth
of nem:xem: the attachment's quantity is 600000 and the multiplier
field is 1000000 micro-XEM, i.e. a whole-unit multiplier of 1, so
getTransactionAmount returns the toFixed STRING 600000.000000 for it. -/
def txPayMosaic600 : RTx :=
  { meta := { id := 2, hash := "HASH-B" },
    transaction := { type := transferType, amount := 1000000,
                     message := some "N1",
                     mosaics := some
                       [{ mosaicId := { namespaceId := "nem", name := "xem" },
                          quantity := 600000 }],
                     otherTrans := none } }

/-- The accumulator entry for invoice N1 after the scenario sweep: both
plain transfers matched, totalPaid the number 1000000, invoice settled
in full. -/
def entryN1Final : HistEntry :=
  { transactions := [txPay400, txPay600], totalPaid := JsAmount.num 1000000,
    invoice := { number := "N1", amount := 1000000,
                 amountPaid := JsAmount.num 1000000,
                 isPaid := true, status := "paid", dirty := true } }

/-- The accumulator state after the scenario sweep. -/
def histN1Final : PayHistory :=
  { byInvoice := [("N1", entryN1Final)], byHash := ["HASH-A", "HASH-B"] }

/-- The accumulator entry for invoice N1 after a sweep whose second
matched record is the nem:xem mosaic transfer: the toFixed string
concatenates onto the numeric 400000, amountPaid becomes the string
400000600000.000000 whose ToNumber value 400000600000 exceeds the
requested 1000000, and the status lands on overpaid although the sum
of the matched amounts is exactly the requested 1000000. -/
def entryN1Mosaic : HistEntry :=
  { transactions := [txPay400, txPayMosaic600],
    totalPaid := JsAmount.str "400000600000.000000",
    invoice := { number := "N1", amount := 1000000,
                 amountPaid := JsAmount.str "400000600000.000000",
                 isPaid := true, status := "overpaid", dirty := true } }

/-- The accumulator state after the mosaic-carrying sweep. -/
def histN1Mosaic : PayHistory :=
  { byInvoice := [("N1", entryN1Mosaic)], byHash := ["HASH-A", "HASH-B"] }

/-! ## Dictionary lemmas -/

theorem alookup_aset_self {α : Type} (l : List (String × α)) (k : String) (v : α) :
    alookup (aset k v l) k = some v := by
  induction l with
  | nil => simp [aset, alookup]
  | cons p rest ih =>
    obtain ⟨k0, w⟩ := p
    by_cases hk : k0 = k
    · subst hk; simp [aset, alookup]
    · simp [aset, alookup, hk, ih]

theorem alookup_aset_ne {α : Type} (l : List (String × α)) (k key : String) (v : α)
    (h : key ≠ k) : alookup (aset k v l) key = alookup l key := by
  induction l with
  | nil => simp [aset, alookup, Ne.symm h]
  | cons p rest ih =>
    obtain ⟨k0, w⟩ := p
    by_cases hk : k0 = k
    · subst hk; simp [aset, alookup, Ne.symm h]
    · by_cases h0 : k0 = key <;> simp [aset, alookup, hk, h0, ih, h]

theorem alookup_map {α β : Type} (f : α → β) (l : List (String × α)) (key : String) :
    alookup (l.map (fun p => (p.1, f p.2))) key = (alookup l key).map f := by
  induction l with
  | nil => simp [alookup]
  | cons p rest ih =>
    by_cases h : p.1 = key <;> simp [alookup, h, ih]

theorem alookup_append_single {α : Type} (l : List (String × α)) (k key : String) (v : α) :
    alookup (l ++ [(k, v)]) key =
      match alookup l key with
      | some w => some w
      | none => if k = key then some v else none := by
  induction l with
  | nil => simp [alookup]
  | cons p rest ih =>
    by_cases h : p.1 = key <;> simp [alookup, h, ih]

theorem alookup_aset_isSome {α : Type} (l : List (String × α)) (k key : String) (v : α)
    (h : (alookup l key).isSome) : (alookup (aset k v l) key).isSome := by
  by_cases hk : key = k
  · subst hk; simp [alookup_aset_self]
  · rwa [alookup_aset_ne l k key v hk]

/-! ## Mosaic extractor lemmas -/

theorem extract_eq_parts (c : TrxContent) (slug : String) (divisibility : Nat)
    (h : slug ≠ "") :
    extractMosaicFromTransactionData_ (some c) slug divisibility =
      match extractorParts c with
      | none => ExtractResult.jsFalse
      | some (ms, r, a) => scanMosaics slug divisibility r a ms := by
  obtain ⟨ty, rc, am, mos, otr⟩ := c
  unfold extractMosaicFromTransactionData_ extractorParts
  by_cases ht : ty = multisigTransactionType
  · cases otr with
    | none => simp [h, ht]
    | some ot =>
      obtain ⟨r0, a0, ms0⟩ := ot
      cases ms0 <;> simp [h, ht]
  · cases mos with
    | none => simp [h, ht]
    | some ms => by_cases he : ms.isEmpty <;> simp [h, ht, he]

theorem scanMosaics_found (slug : String) (divisibility : Nat) (r : String) (a : Nat)
    (ms : List MosaicAttachment) (m : MosaicAttachment)
    (hfind : ms.find? (fun x => slug = mosaicSlug x) = some m) :
    scanMosaics slug divisibility r a ms
      = ExtractResult.obj (codeMosaicMultiplier a divisibility * m.quantity) (some r) := by
  induction ms with
  | nil => simp [List.find?] at hfind
  | cons x rest ih =>
    by_cases hx : slug = mosaicSlug x
    · rw [List.find?_cons_of_pos _ (by simpa using hx)] at hfind
      obtain rfl : x = m := by simpa using hfind
      simp [scanMosaics, hx, codeMosaicMultiplier]
    · rw [List.find?_cons_of_neg _ (by simpa using hx)] at hfind
      simp [scanMosaics, hx, ih hfind]

theorem scanMosaics_notFound (slug : String) (divisibility : Nat) (r : String) (a : Nat)
    (ms : List MosaicAttachment) (h : ∀ m ∈ ms, slug ≠ mosaicSlug m) :
    scanMosaics slug divisibility r a ms = ExtractResult.obj 0 none := by
  induction ms with
  | nil => rfl
  | cons x rest ih =>
    have hx : slug ≠ mosaicSlug x := h x (by simp)
    simp only [scanMosaics]
    rw [if_pos hx]
    exact ih (fun m hm => h m (by simp [hm]))

/-! ## Claim C2 -/

/-- C2 counterexample: the claim states the extracted quantity is
entry.quantity times max(1, floor(amount / 10^divisibility)). On a
transfer carrying five ns:heart with the positive multiplier field
500000 and divisibility 6, the code computes multiplier
parseInt(500000 / 10^6) = 0 and returns quantity 0, while the claimed
formula gives 5 times max(1, 0) = 5; the claimed lower bound of one
entry quantity also fails. -/
theorem c2_counterexample :
    extractMosaicFromTransactionData_ (some contentC2) "ns:heart" 6
      = ExtractResult.obj 0 (some "RCX")
    ∧ specMosaicQuantity mosHeart5.quantity contentC2.amount 6 = 5
    ∧ ExtractResult.obj 0 (some "RCX")
        ≠ ExtractResult.obj (specMosaicQuantity mosHeart5.quantity contentC2.amount 6)
            (some "RCX") := by
  refine ⟨by decide, by decide, by decide⟩

/-- C2 (amended): for every transaction content whose selected asset
list has a first entry matching the requested slug, the extractor
returns quantity = entry.quantity × (floor(amount / 10^divisibility)
if the transaction's amount field is positive, else 1) together with
the selected recipient. The multiplier is NOT floored to a minimum of
1: a positive amount below 10^divisibility yields multiplier 0 and
hence quantity 0. For amount 2000000 with divisibility 6 and entry
quantity 5 the result is 10, as the specification's scenario states. -/
theorem c2_amended (c : TrxContent) (slug : String) (divisibility : Nat)
    (ms : List MosaicAttachment) (r : String) (a : Nat) (m : MosaicAttachment)
    (hslug : slug ≠ "")
    (hparts : extractorParts c = some (ms, r, a))
    (hfind : ms.find? (fun x => slug = mosaicSlug x) = some m) :
    extractMosaicFromTransactionData_ (some c) slug divisibility
      = ExtractResult.obj (codeMosaicMultiplier a divisibility * m.quantity) (some r) := by
  rw [extract_eq_parts c slug divisibility hslug, hparts]
  exact scanMosaics_found slug divisibility r a ms m hfind

/-- C2 witness: the specification's scenario evaluated through
c2_amended - five ns:heart at multiplier field 2000000, divisibility 6,
extracted quantity 10. -/
theorem c2_witness :
    extractMosaicFromTransactionData_ (some contentC2W) "ns:heart" 6
      = ExtractResult.obj 10 (some "RW") := by
  have h := c2_amended contentC2W "ns:heart" 6 [mosHeart5] "RW" 2000000 mosHeart5
    (by decide) (by decide) (by decide)
  rw [h]; decide

/-! ## Claim C8 -/

/-- C8 counterexample: the claim states every not-found case yields the
same result value (zero quantity, no recipient). A multisig envelope
lacking its inner transaction instead returns the bare boolean false,
a different value from the not-found object that the empty-argument
case returns. -/
theorem c8_counterexample :
    extractMosaicFromTransactionData_ (some contentC8) "ns:heart" 6 = ExtractResult.jsFalse
    ∧ extractMosaicFromTransactionData_ none "ns:heart" 6 = ExtractResult.obj 0 none
    ∧ ExtractResult.jsFalse ≠ ExtractResult.obj 0 none := by
  refine ⟨by decide, by decide, by decide⟩

/-- C8 (amended): the empty-argument cases and the no-matching-entry
case return the not-found object (zero quantity, no recipient), while
the missing-asset-list cases - a multisig envelope lacking its inner
transaction or the inner asset list, and a plain transfer lacking a
non-empty asset list - return the bare boolean false instead. -/
theorem c8_amended (slug : String) (divisibility : Nat) (c : TrxContent) (ot : TrxPart)
    (ms : List MosaicAttachment) (r : String) (a : Nat) :
    (extractMosaicFromTransactionData_ none slug divisibility = ExtractResult.obj 0 none)
    ∧ (extractMosaicFromTransactionData_ (some c) "" divisibility = ExtractResult.obj 0 none)
    ∧ (slug ≠ "" → c.type = multisigTransactionType → c.otherTrans = none →
        extractMosaicFromTransactionData_ (some c) slug divisibility = ExtractResult.jsFalse)
    ∧ (slug ≠ "" → c.type = multisigTransactionType → c.otherTrans = some ot →
        ot.mosaics = none →
        extractMosaicFromTransactionData_ (some c) slug divisibility = ExtractResult.jsFalse)
    ∧ (slug ≠ "" → c.type ≠ multisigTransactionType →
        (c.mosaics = none ∨ c.mosaics = some []) →
        extractMosaicFromTransactionData_ (some c) slug divisibility = ExtractResult.jsFalse)
    ∧ (slug ≠ "" → extractorParts c = some (ms, r, a) →
        (∀ m ∈ ms, slug ≠ mosaicSlug m) →
        extractMosaicFromTransactionData_ (some c) slug divisibility
          = ExtractResult.obj 0 none) := by
  refine ⟨rfl, by simp [extractMosaicFromTransactionData_], ?_, ?_, ?_, ?_⟩
  · intro hs ht ho
    simp [extractMosaicFromTransactionData_, hs, ht, ho]
  · intro hs ht ho hm
    simp [extractMosaicFromTransactionData_, hs, ht, ho, hm]
  · intro hs ht hm
    rcases hm with hm | hm <;> simp [extractMosaicFromTransactionData_, hs, ht, hm]
  · intro hs hparts hnone
    rw [extract_eq_parts c slug divisibility hs, hparts]
    exact scanMosaics_notFound slug divisibility r a ms hnone

/-- C8 witness: c8_amended applied at a multisig envelope without an
inner transaction and at the missing-content case. -/
theorem c8_witness :
    extractMosaicFromTransactionData_ (some contentC8) "ns:xem" 6 = ExtractResult.jsFalse
    ∧ extractMosaicFromTransactionData_ none "ns:xem" 6 = ExtractResult.obj 0 none := by
  have h := c8_amended "ns:xem" 6 contentC8 { recipient := "x", amount := 0, mosaics := none }
    [] "x" 0
  exact ⟨h.2.2.1 (by decide) (by decide) (by decide), h.1⟩

/-! ## Claim C7 -/

/-- C7: the transaction hash accessor is total on
TransactionMetaDataPair records - it returns the metadata hash, returns
the inner hash instead when inner is requested and a non-empty inner
hash payload exists, and returns the empty value none (never an error)
when neither hash payload is present. -/
theorem c7_transaction_hash (t : TransactionMetaDataPair) (inner : Bool) :
    (inner = true → truthyNonEmpty t.meta.innerHash.data = true →
        getTransactionHash t inner = t.meta.innerHash.data)
    ∧ ((inner = false ∨ truthyNonEmpty t.meta.innerHash.data = false) →
        getTransactionHash t inner = t.meta.hash.data)
    ∧ (t.meta.hash.data = none → t.meta.innerHash.data = none →
        getTransactionHash t inner = none) := by
  refine ⟨?_, ?_, ?_⟩
  · intro hi ht
    simp [getTransactionHash, hi, ht]
  · intro h
    rcases h with h | h <;> simp [getTransactionHash, h]
  · intro hh hi
    cases hinner : inner <;> simp [getTransactionHash, hh, hi, truthyNonEmpty]

/-- C7 witness: c7_transaction_hash applied at a record with neither
hash payload, inner requested - the accessor returns the empty value. -/
theorem c7_witness :
    getTransactionHash tmdpNoHashes true = none :=
  (c7_transaction_hash tmdpNoHashes true).2.2 (by decide) (by decide)

/-! ## Claim C5 -/

/-- C5 counterexample: the claim quantifies over every raw bot payload
and promises exactly one forwarded event and one store mutation across
two byte-identical deliveries. A payload that JSON.parse rejects (the
bot channel is untrusted) throws at line 440 BEFORE the checksum is
recorded and before anything is forwarded or stored, so the state is
unchanged and the second, byte-identical delivery from that unchanged
state throws identically: across the two deliveries zero events are
forwarded and zero store mutations performed, never an ok result. -/
theorem c5_counterexample :
    onBotStatusUpdate (fun s => s)
        (fun _ => Except.error "SyntaxError: Unexpected token") [] "client1" "]["
      = Except.error "SyntaxError: Unexpected token"
    ∧ ∀ p : List (String × String) × List BotEffect,
        onBotStatusUpdate (fun s => s)
            (fun _ => Except.error "SyntaxError: Unexpected token") [] "client1" "]["
          ≠ Except.ok p := by
  have h0 : onBotStatusUpdate (fun s => s)
      (fun _ => Except.error "SyntaxError: Unexpected token") [] "client1" "]["
      = Except.error "SyntaxError: Unexpected token" := rfl
  exact ⟨h0, fun p hp => by rw [h0] at hp; exact Except.noConfusion hp⟩

/-- C5 (amended): for every raw bot payload that JSON.parse accepts
(and whose content checksum is not yet recorded), delivering the
byte-identical payload a second time is a silent no-op: the first
delivery records the checksum, forwards one status-update event and
performs one store mutation; the second delivery is discarded with no
effect, so across the two deliveries exactly one event is forwarded
and exactly one store mutation performed. A payload whose parse throws
instead propagates the SyntaxError before recording or forwarding
anything, on every delivery. Stated for every checksum function, every
parse outcome assignment, every prior checksum table not yet
containing the payload's checksum, every client socket and every
payload. -/
theorem c5_amended (md5 : String → String) (parseJson : String → Except String Unit)
    (byChecksum : List (String × String)) (clientSocketId rawdata : String)
    (hfresh : alookup byChecksum (md5 rawdata) = none)
    (hparse : parseJson rawdata = Except.ok ()) :
    onBotStatusUpdate md5 parseJson byChecksum clientSocketId rawdata
      = Except.ok (aset (md5 rawdata) rawdata byChecksum,
          [BotEffect.forwardStatusUpdate clientSocketId rawdata,
           BotEffect.storeUpdate rawdata])
    ∧ onBotStatusUpdate md5 parseJson (aset (md5 rawdata) rawdata byChecksum)
        clientSocketId rawdata
      = Except.ok (aset (md5 rawdata) rawdata byChecksum, [])
    ∧ ([BotEffect.forwardStatusUpdate clientSocketId rawdata,
        BotEffect.storeUpdate rawdata] ++ ([] : List BotEffect)).countP isForwardEffect = 1
    ∧ ([BotEffect.forwardStatusUpdate clientSocketId rawdata,
        BotEffect.storeUpdate rawdata] ++ ([] : List BotEffect)).countP isStoreEffect = 1 := by
  refine ⟨?_, ?_, ?_, ?_⟩
  · simp [onBotStatusUpdate, hfresh, hparse]
  · simp [onBotStatusUpdate, alookup_aset_self]
  · simp [List.countP_cons, isForwardEffect, isStoreEffect]
  · simp [List.countP_cons, isForwardEffect, isStoreEffect]

/-- C5 witness: c5_amended at the identity checksum, an
always-accepting parse, the empty checksum table, a concrete client
socket and payload. -/
theorem c5_witness :
    onBotStatusUpdate (fun s => s) (fun _ => Except.ok ()) [] "client1" "payload1"
      = Except.ok (aset "payload1" "payload1" [],
          [BotEffect.forwardStatusUpdate "client1" "payload1",
           BotEffect.storeUpdate "payload1"])
    ∧ onBotStatusUpdate (fun s => s) (fun _ => Except.ok ())
        (aset "payload1" "payload1" []) "client1" "payload1"
      = Except.ok (aset "payload1" "payload1" [], [])
    ∧ ([BotEffect.forwardStatusUpdate "client1" "payload1",
        BotEffect.storeUpdate "payload1"] ++ ([] : List BotEffect)).countP isForwardEffect = 1
    ∧ ([BotEffect.forwardStatusUpdate "client1" "payload1",
        BotEffect.storeUpdate "payload1"] ++ ([] : List BotEffect)).countP isStoreEffect = 1 :=
  c5_amended (fun s => s) (fun _ => Except.ok ()) [] "client1" "payload1" rfl rfl

/-! ## Claim C6 -/

/-- C6 counterexample: the claim states an unconfirmed bot payload
matching an invoice updates only amountUnconfirmed, leaves status
unchanged and never reaches the success-notification path. On the
already-paid invoice invC6 (isPaid, amountPaid 100 = amount), the
unconfirmed payload dataC6 changes status from paid to unconfirmed and
the success path IS invoked (isPaid still true and
amountPaid + amountUnconfirmed = 140 at least amount 100). -/
theorem c6_counterexample :
    (applyStatusUpdate dataC6 invC6 7).status = "unconfirmed"
    ∧ invC6.status = "paid"
    ∧ (applyStatusUpdate dataC6 invC6 7).status ≠ invC6.status
    ∧ invokesSuccessPath dataC6 invC6 7 = true := by
  refine ⟨by decide, by decide, by decide, by decide⟩

/-- C6 (amended): processing a bot payload with status unconfirmed that
matches an existing invoice sets amountUnconfirmed from the payload AND
sets status to unconfirmed; amountPaid, isPaid and paidAt (and every
other field) are unchanged, so isPaid is never newly set; and the
success-notification path is invoked exactly when the invoice was
already marked isPaid and amountPaid plus the new amountUnconfirmed
reaches the requested amount - in particular it is not invoked on any
invoice not already marked paid. -/
theorem c6_amended (data : BotStatusData) (invoice : Invoice) (now : Nat)
    (hst : data.status = "unconfirmed") :
    applyStatusUpdate data invoice now
      = { invoice with status := "unconfirmed",
                       amountUnconfirmed := data.amountUnconfirmed }
    ∧ (invokesSuccessPath data invoice now = true ↔
        (invoice.isPaid = true
         ∧ invoice.amount ≤ invoice.amountPaid + data.amountUnconfirmed)) := by
  have happ : applyStatusUpdate data invoice now
      = { invoice with status := "unconfirmed",
                       amountUnconfirmed := data.amountUnconfirmed } := by
    simp [applyStatusUpdate, hst]
  refine ⟨happ, ?_⟩
  rw [invokesSuccessPath, happ]
  simp [hst, getTotalIncoming, Nat.not_lt]

/-- C6 witness: c6_amended at the not-yet-paid invoice invC6W and the
unconfirmed payload dataC6W - status becomes unconfirmed,
amountUnconfirmed becomes 50, everything else is unchanged, and the
success path is not invoked. -/
theorem c6_witness :
    applyStatusUpdate dataC6W invC6W 9
      = { invC6W with status := "unconfirmed", amountUnconfirmed := 50 }
    ∧ invokesSuccessPath dataC6W invC6W 9 = false := by
  have h := c6_amended dataC6W invC6W 9 (by decide)
  refine ⟨h.1, ?_⟩
  have h2 := h.2
  by_cases hs : invokesSuccessPath dataC6W invC6W 9 = true
  · exact absurd (h2.mp hs).1 (by decide)
  · simpa using hs

/-! ## Claim C10 -/

/-- C10: after a bot status update with status paid or unconfirmed is
applied to a matched invoice and saved, the payment-success path is
invoked if and only if the post-update invoice has isPaid set and
getTotalIncoming - amountPaid plus amountUnconfirmed - reaches the
requested amount; unconfirmed funds count toward the threshold. -/
theorem c10_success_condition (data : BotStatusData) (invoice : Invoice) (now : Nat)
    (hst : data.status = "paid" ∨ data.status = "unconfirmed") :
    invokesSuccessPath data invoice now = true ↔
      ((applyStatusUpdate data invoice now).isPaid = true
       ∧ (applyStatusUpdate data invoice now).amount
           ≤ getTotalIncoming (applyStatusUpdate data invoice now)) := by
  rw [invokesSuccessPath]
  have hcond : ¬ (data.status ≠ "paid" ∧ data.status ≠ "unconfirmed") := by
    rcases hst with h | h <;> simp [h]
  rw [if_neg hcond]
  by_cases hp : (applyStatusUpdate data invoice now).isPaid = false
  · simp [hp]
  · have hp2 : (applyStatusUpdate data invoice now).isPaid = true := by
      simpa using hp
    by_cases hlt : getTotalIncoming (applyStatusUpdate data invoice now)
        < (applyStatusUpdate data invoice now).amount
    · simp [hp2, hlt, Nat.not_le_of_lt hlt]
    · simp [hp2, hlt, Nat.le_of_not_lt hlt]

/-- C10 witness: c10_success_condition at invoice IV-11 and the paid
payload settling it in full - the success path is invoked. -/
theorem c10_witness :
    invokesSuccessPath dataC10W invC10W 3 = true :=
  (c10_success_condition dataC10W invC10W 3 (Or.inl (by decide))).mpr
    (by refine ⟨by decide, by decide⟩)

/-! ## Claim C4 -/

/-- C4: the claim states every page request of a pagination walk - the
first page and every recursive page - queries the gateway for the same
recipient address. The first page does use the recipient parameter, but
the recursive call passes (invoices, lastTrxRead, callback) into the
parameters (recipient, invoices, lastTrxRead, callback): the recursive
invocation receives the invoices array as its recipient and an
undefined callback, its entry guard reads the length of a transaction
id (undefined, falsy) and calls the undefined callback, throwing a
TypeError before any gateway request - so no recursive page request for
the original recipient (or any recipient) is ever issued. Evaluated at
the failing input: one invoice, a full first page ending at transaction
id 4242. -/
theorem c4_pagination_recursion_bug :
    fetchInvoicesEntry (JsVal.strVal "TB2AVENDOR") (JsVal.arrVal 1) JsVal.nullVal JsVal.funVal
      = FetchOutcome.proceeds (JsVal.strVal "TB2AVENDOR") JsVal.nullVal
    ∧ fetchRecursiveStep (JsVal.arrVal 1) (JsVal.numVal 4242) JsVal.funVal
      = FetchOutcome.thrown "TypeError: callback is not a function"
    ∧ fetchRecursiveStep (JsVal.arrVal 1) (JsVal.numVal 4242) JsVal.funVal
      ≠ FetchOutcome.proceeds (JsVal.strVal "TB2AVENDOR") (JsVal.numVal 4242) := by
  refine ⟨by decide, by decide, by decide⟩

/-! ## Claim C9 -/

/-- C9: the claim states that when an invoice's post-update state is
fully paid, a payment-success event is emitted to every channel
registered for that invoice number - which is also what the function's
own documentation comment says it does. The emit payload
JSON.stringify(clientData) references the identifier clientData, which
is not declared in any scope enclosing processPaymentChannelSuccess
(it is a var of the sibling status-update listener closure), so the
first iteration throws a ReferenceError and no event is emitted to any
registered channel. -/
theorem c9_success_notification_throws :
    processPaymentChannelSuccess [("INV-1", ["clientA", "clientB"])] "INV-1"
      = Except.error "ReferenceError: clientData is not defined"
    ∧ ∀ sent : List (String × String),
        processPaymentChannelSuccess [("INV-1", ["clientA", "clientB"])] "INV-1"
          ≠ Except.ok sent := by
  have h0 : processPaymentChannelSuccess [("INV-1", ["clientA", "clientB"])] "INV-1"
      = Except.error "ReferenceError: clientData is not defined" := by
    simp [processPaymentChannelSuccess, alookup, emitSuccessLoop, evalIdentifier,
      processSuccessScopeVars]
  refine ⟨h0, fun sent h => ?_⟩
  rw [h0] at h
  exact Except.noConfusion h

/-! ## Reconciliation scan-loop step lemmas -/

theorem scanLoop_nil (h : PayHistory) (acc : Option Nat) :
    scanLoop h acc [] = Except.ok (h, SaveResult.lastId acc) := rfl

theorem scanLoop_cons_err_msg (h : PayHistory) (acc : Option Nat) (t : RTx) (rest : List RTx)
    (e : String) (hm : getTransactionMessageE t = Except.error e) :
    scanLoop h acc (t :: rest) = Except.error e := by
  simp [scanLoop, hm]

theorem scanLoop_cons_err_amt (h : PayHistory) (acc : Option Nat) (t : RTx) (rest : List RTx)
    (m : String) (e : String)
    (hm : getTransactionMessageE t = Except.ok m)
    (ha : getTransactionAmountE t "nem:xem" 6 = Except.error e) :
    scanLoop h acc (t :: rest) = Except.error e := by
  simp [scanLoop, hm, ha]

theorem scanLoop_cons_seen (h : PayHistory) (acc : Option Nat) (t : RTx) (rest : List RTx)
    (m : String) (n : JsAmount)
    (hm : getTransactionMessageE t = Except.ok m)
    (ha : getTransactionAmountE t "nem:xem" 6 = Except.ok n)
    (hseen : rtxHash t ∈ h.byHash) :
    scanLoop h acc (t :: rest) = Except.ok (h, SaveResult.stopped) := by
  simp [scanLoop, hm, ha, hseen]

theorem scanLoop_cons_irrelevant (h : PayHistory) (acc : Option Nat) (t : RTx)
    (rest : List RTx) (m : String) (n : JsAmount)
    (hm : getTransactionMessageE t = Except.ok m)
    (ha : getTransactionAmountE t "nem:xem" 6 = Except.ok n)
    (hseen : rtxHash t ∉ h.byHash)
    (hrel : isRelevantType t = false) :
    scanLoop h acc (t :: rest)
      = scanLoop { h with byHash := h.byHash ++ [rtxHash t] }
          (some (getTransactionId t)) rest := by
  simp [scanLoop, hm, ha, hseen, hrel]

theorem scanLoop_cons_nokey (h : PayHistory) (acc : Option Nat) (t : RTx)
    (rest : List RTx) (m : String) (n : JsAmount)
    (hm : getTransactionMessageE t = Except.ok m)
    (ha : getTransactionAmountE t "nem:xem" 6 = Except.ok n)
    (hseen : rtxHash t ∉ h.byHash)
    (hrel : isRelevantType t = true)
    (hkey : alookup h.byInvoice (jsToUpperCase m) = none) :
    scanLoop h acc (t :: rest)
      = scanLoop { h with byHash := h.byHash ++ [rtxHash t] }
          (some (getTransactionId t)) rest := by
  simp [scanLoop, hm, ha, hseen, hrel, hkey]

theorem scanLoop_cons_match (h : PayHistory) (acc : Option Nat) (t : RTx)
    (rest : List RTx) (m : String) (n : JsAmount) (entry : HistEntry)
    (hm : getTransactionMessageE t = Except.ok m)
    (ha : getTransactionAmountE t "nem:xem" 6 = Except.ok n)
    (hseen : rtxHash t ∉ h.byHash)
    (hrel : isRelevantType t = true)
    (hkey : alookup h.byInvoice (jsToUpperCase m) = some entry) :
    scanLoop h acc (t :: rest)
      = scanLoop
          { byInvoice :=
              aset (jsToUpperCase m)
                ({ entry with
                    transactions := entry.transactions ++ [t],
                    totalPaid := jsAdd entry.totalPaid n })
                h.byInvoice,
            byHash := h.byHash ++ [rtxHash t] }
          (some (getTransactionId t)) rest := by
  simp [scanLoop, hm, ha, hseen, hrel, hkey]

/-! ## Reconciliation scan-loop invariants -/

theorem scanLoop_byHash_mono (txs : List RTx) :
    ∀ h acc h1 r, scanLoop h acc txs = Except.ok (h1, r) →
      ∀ x, x ∈ h.byHash → x ∈ h1.byHash := by
  induction txs with
  | nil =>
    intro h acc h1 r heq x hx
    rw [scanLoop_nil] at heq
    simp only [Except.ok.injEq, Prod.mk.injEq] at heq
    obtain ⟨rfl, rfl⟩ := heq
    exact hx
  | cons t rest ih =>
    intro h acc h1 r heq x hx
    cases hm : getTransactionMessageE t with
    | error e =>
      rw [scanLoop_cons_err_msg h acc t rest e hm] at heq
      exact Except.noConfusion heq
    | ok m =>
      cases ha : getTransactionAmountE t "nem:xem" 6 with
      | error e =>
        rw [scanLoop_cons_err_amt h acc t rest m e hm ha] at heq
        exact Except.noConfusion heq
      | ok n =>
        by_cases hseen : rtxHash t ∈ h.byHash
        · rw [scanLoop_cons_seen h acc t rest m n hm ha hseen] at heq
          simp only [Except.ok.injEq, Prod.mk.injEq] at heq
          obtain ⟨rfl, rfl⟩ := heq
          exact hx
        · by_cases hrel : isRelevantType t = false
          · rw [scanLoop_cons_irrelevant h acc t rest m n hm ha hseen hrel] at heq
            exact ih _ _ _ _ heq x (by simp [hx])
          · have hrel2 : isRelevantType t = true := by simpa using hrel
            cases hkey : alookup h.byInvoice (jsToUpperCase m) with
            | none =>
              rw [scanLoop_cons_nokey h acc t rest m n hm ha hseen hrel2 hkey] at heq
              exact ih _ _ _ _ heq x (by simp [hx])
            | some entry =>
              rw [scanLoop_cons_match h acc t rest m n entry hm ha hseen hrel2 hkey] at heq
              exact ih _ _ _ _ heq x (by simp [hx])

theorem scanLoop_head_hash_mem (h : PayHistory) (acc : Option Nat) (t : RTx)
    (rest : List RTx) (h1 : PayHistory) (r : SaveResult)
    (heq : scanLoop h acc (t :: rest) = Except.ok (h1, r)) :
    rtxHash t ∈ h1.byHash := by
  cases hm : getTransactionMessageE t with
  | error e =>
    rw [scanLoop_cons_err_msg h acc t rest e hm] at heq
    exact Except.noConfusion heq
  | ok m =>
    cases ha : getTransactionAmountE t "nem:xem" 6 with
    | error e =>
      rw [scanLoop_cons_err_amt h acc t rest m e hm ha] at heq
      exact Except.noConfusion heq
    | ok n =>
      by_cases hseen : rtxHash t ∈ h.byHash
      · rw [scanLoop_cons_seen h acc t rest m n hm ha hseen] at heq
        simp only [Except.ok.injEq, Prod.mk.injEq] at heq
        obtain ⟨rfl, rfl⟩ := heq
        exact hseen
      · by_cases hrel : isRelevantType t = false
        · rw [scanLoop_cons_irrelevant h acc t rest m n hm ha hseen hrel] at heq
          exact scanLoop_byHash_mono rest _ _ _ _ heq (rtxHash t) (by simp)
        · have hrel2 : isRelevantType t = true := by simpa using hrel
          cases hkey : alookup h.byInvoice (jsToUpperCase m) with
          | none =>
            rw [scanLoop_cons_nokey h acc t rest m n hm ha hseen hrel2 hkey] at heq
            exact scanLoop_byHash_mono rest _ _ _ _ heq (rtxHash t) (by simp)
          | some entry =>
            rw [scanLoop_cons_match h acc t rest m n entry hm ha hseen hrel2 hkey] at heq
            exact scanLoop_byHash_mono rest _ _ _ _ heq (rtxHash t) (by simp)

theorem scanLoop_ok_head_decoders (h : PayHistory) (acc : Option Nat) (t : RTx)
    (rest : List RTx) (p : PayHistory × SaveResult)
    (heq : scanLoop h acc (t :: rest) = Except.ok p) :
    getTransactionMessageE t = Except.ok (decodedMessage t)
    ∧ getTransactionAmountE t "nem:xem" 6 = Except.ok (decodedAmount t) := by
  cases hm : getTransactionMessageE t with
  | error e =>
    rw [scanLoop_cons_err_msg h acc t rest e hm] at heq
    exact Except.noConfusion heq
  | ok m =>
    cases ha : getTransactionAmountE t "nem:xem" 6 with
    | error e =>
      rw [scanLoop_cons_err_amt h acc t rest m e hm ha] at heq
      exact Except.noConfusion heq
    | ok n =>
      constructor
      · simp [decodedMessage, hm]
      · simp [decodedAmount, ha]

theorem scanLoop_keys (txs : List RTx) :
    ∀ h acc h1 r, scanLoop h acc txs = Except.ok (h1, r) →
      ∀ k, (alookup h.byInvoice k).isSome → (alookup h1.byInvoice k).isSome := by
  induction txs with
  | nil =>
    intro h acc h1 r heq k hk
    rw [scanLoop_nil] at heq
    simp only [Except.ok.injEq, Prod.mk.injEq] at heq
    obtain ⟨rfl, rfl⟩ := heq
    exact hk
  | cons t rest ih =>
    intro h acc h1 r heq k hk
    cases hm : getTransactionMessageE t with
    | error e =>
      rw [scanLoop_cons_err_msg h acc t rest e hm] at heq
      exact Except.noConfusion heq
    | ok m =>
      cases ha : getTransactionAmountE t "nem:xem" 6 with
      | error e =>
        rw [scanLoop_cons_err_amt h acc t rest m e hm ha] at heq
        exact Except.noConfusion heq
      | ok n =>
        by_cases hseen : rtxHash t ∈ h.byHash
        · rw [scanLoop_cons_seen h acc t rest m n hm ha hseen] at heq
          simp only [Except.ok.injEq, Prod.mk.injEq] at heq
          obtain ⟨rfl, rfl⟩ := heq
          exact hk
        · by_cases hrel : isRelevantType t = false
          · rw [scanLoop_cons_irrelevant h acc t rest m n hm ha hseen hrel] at heq
            exact ih _ _ _ _ heq k hk
          · have hrel2 : isRelevantType t = true := by simpa using hrel
            cases hkey : alookup h.byInvoice (jsToUpperCase m) with
            | none =>
              rw [scanLoop_cons_nokey h acc t rest m n hm ha hseen hrel2 hkey] at heq
              exact ih _ _ _ _ heq k hk
            | some entry =>
              rw [scanLoop_cons_match h acc t rest m n entry hm ha hseen hrel2 hkey] at heq
              exact ih _ _ _ _ heq k (alookup_aset_isSome h.byInvoice _ k _ hk)

/-! ## Matched-record bookkeeping lemmas -/

theorem matchedTxs_cons (num : String) (t : RTx) (rest : List RTx) :
    matchedTxs num (t :: rest)
      = if matchesInvoice num t then t :: matchedTxs num rest else matchedTxs num rest := by
  simp [matchedTxs, List.filter_cons]

theorem matchedSum_cons (num : String) (t : RTx) (rest : List RTx) :
    matchedSum num (t :: rest)
      = (if matchesInvoice num t then decodedAmountNat t else 0) + matchedSum num rest := by
  rw [matchedSum, matchedTxs_cons]
  by_cases hm : matchesInvoice num t <;> simp [hm, matchedSum]

theorem accumulateAmounts_nil (z : JsAmount) : accumulateAmounts z [] = z := rfl

theorem accumulateAmounts_cons (z : JsAmount) (t : RTx) (rest : List RTx) :
    accumulateAmounts z (t :: rest)
      = accumulateAmounts (jsAdd z (decodedAmount t)) rest := rfl

/-- A JavaScript-added run over records whose decoded amounts are all
numbers stays a number and computes the numeric sum. -/
theorem accumulateAmounts_num (ts : List RTx) :
    ∀ z, (∀ t ∈ ts, hasNumericAmount t = true) →
      accumulateAmounts (JsAmount.num z) ts
        = JsAmount.num (z + (ts.map decodedAmountNat).sum) := by
  induction ts with
  | nil => intro z _; simp [accumulateAmounts]
  | cons t rest ih =>
    intro z hall
    have ht := hall t (by simp)
    have hdt : decodedAmount t = JsAmount.num (decodedAmountNat t) := by
      cases hd : decodedAmount t with
      | num k => simp [decodedAmountNat, hd]
      | str s => simp [hasNumericAmount, hd] at ht
    rw [accumulateAmounts_cons, hdt]
    rw [show jsAdd (JsAmount.num z) (JsAmount.num (decodedAmountNat t))
        = JsAmount.num (z + decodedAmountNat t) from rfl]
    rw [ih (z + decodedAmountNat t) (fun u hu => hall u (by simp [hu]))]
    simp [Nat.add_assoc]

/-! ## Scan-loop accumulation -/

theorem scanLoop_lookup (txs : List RTx) :
    ∀ h acc h1 a, scanLoop h acc txs = Except.ok (h1, SaveResult.lastId a) →
      ∀ num, alookup h1.byInvoice num
        = (alookup h.byInvoice num).map (fun e =>
            { e with transactions := e.transactions ++ matchedTxs num txs,
                     totalPaid := accumulateAmounts e.totalPaid (matchedTxs num txs) }) := by
  induction txs with
  | nil =>
    intro h acc h1 a heq num
    rw [scanLoop_nil] at heq
    simp only [Except.ok.injEq, Prod.mk.injEq, SaveResult.lastId.injEq] at heq
    obtain ⟨rfl, rfl⟩ := heq
    simp only [matchedTxs, List.filter_nil, List.append_nil, accumulateAmounts_nil]
    cases alookup h.byInvoice num with
    | none => rfl
    | some e => rfl
  | cons t rest ih =>
    intro h acc h1 a heq num
    have hdec := scanLoop_ok_head_decoders h acc t rest _ heq
    by_cases hseen : rtxHash t ∈ h.byHash
    · rw [scanLoop_cons_seen h acc t rest _ _ hdec.1 hdec.2 hseen] at heq
      simp only [Except.ok.injEq, Prod.mk.injEq] at heq
      exact absurd heq.2 (by simp)
    · by_cases hrel : isRelevantType t = false
      · rw [scanLoop_cons_irrelevant h acc t rest _ _ hdec.1 hdec.2 hseen hrel] at heq
        have hmatch : matchesInvoice num t = false := by
          simp [matchesInvoice, hrel]
        rw [ih _ _ _ _ heq num, matchedTxs_cons, hmatch]
        simp
      · have hrel2 : isRelevantType t = true := by simpa using hrel
        cases hkey : alookup h.byInvoice (jsToUpperCase (decodedMessage t)) with
        | none =>
          rw [scanLoop_cons_nokey h acc t rest _ _ hdec.1 hdec.2 hseen hrel2 hkey] at heq
          by_cases hnum : jsToUpperCase (decodedMessage t) = num
          · subst hnum
            rw [ih _ _ _ _ heq _]
            simp [hkey]
          · have hmatch : matchesInvoice num t = false := by
              simp [matchesInvoice, hnum]
            rw [ih _ _ _ _ heq num, matchedTxs_cons, hmatch]
            simp
        | some entry =>
          rw [scanLoop_cons_match h acc t rest _ _ entry hdec.1 hdec.2 hseen hrel2 hkey] at heq
          by_cases hnum : jsToUpperCase (decodedMessage t) = num
          · subst hnum
            have hmatch : matchesInvoice (jsToUpperCase (decodedMessage t)) t = true := by
              simp [matchesInvoice, hrel2]
            rw [ih _ _ _ _ heq _, matchedTxs_cons, hmatch]
            obtain ⟨etxs, etp, einv⟩ := entry
            simp [alookup_aset_self, hkey, List.append_assoc, accumulateAmounts_cons]
          · have hmatch : matchesInvoice num t = false := by
              simp [matchesInvoice, hnum]
            rw [ih _ _ _ _ heq num, matchedTxs_cons, hmatch]
            have hne := alookup_aset_ne h.byInvoice (jsToUpperCase (decodedMessage t)) num
              ({ entry with transactions := entry.transactions ++ [t],
                            totalPaid := jsAdd entry.totalPaid (decodedAmount t) })
              (Ne.symm hnum)
            simp [hne]

/-! ## Write-back lemmas -/

theorem writeBack_byHash (h : PayHistory) : (writeBack h).byHash = h.byHash := rfl

theorem alookup_writeBack (h : PayHistory) (num : String) :
    alookup (writeBack h).byInvoice num = (alookup h.byInvoice num).map writeBackEntry := by
  simpa [writeBack] using alookup_map writeBackEntry h.byInvoice num

theorem jsGeNat_num (a n : Nat) : jsGeNat (JsAmount.num a) n = decide (n ≤ a) := rfl

theorem jsGtNat_num (a n : Nat) : jsGtNat (JsAmount.num a) n = decide (n < a) := rfl

theorem writeBackEntry_idem (e : HistEntry) :
    writeBackEntry (writeBackEntry e) = writeBackEntry e := by
  obtain ⟨txs, tp, inv⟩ := e
  obtain ⟨n, am, ap, ip, st, d⟩ := inv
  by_cases hc : jsGeNat tp am = true <;> simp [writeBackEntry, hc]

theorem writeBack_idem (h : PayHistory) : writeBack (writeBack h) = writeBack h := by
  unfold writeBack
  congr 1
  rw [List.map_map]
  apply List.map_congr_left
  intro p _
  simp [Function.comp, writeBackEntry_idem]

theorem writeBackEntry_invoice (e : HistEntry) :
    (writeBackEntry e).invoice.amountPaid = e.totalPaid
    ∧ (writeBackEntry e).invoice.amount = e.invoice.amount
    ∧ (jsGeNat e.totalPaid e.invoice.amount = true →
        (writeBackEntry e).invoice.isPaid = true
        ∧ (writeBackEntry e).invoice.status
            = (if jsGtNat e.totalPaid e.invoice.amount then "overpaid" else "paid")) := by
  obtain ⟨txs, tp, inv⟩ := e
  obtain ⟨n, am, ap, ip, st, d⟩ := inv
  by_cases hc : jsGeNat tp am = true <;> simp [writeBackEntry, hc]

/-! ## Save lemmas -/

theorem save_of_scan_stopped (h : PayHistory) (txs : List RTx) (h2 : PayHistory)
    (hscan : scanLoop h none txs = Except.ok (h2, SaveResult.stopped)) :
    saveIncomingPaymentsHistory h txs = Except.ok (h2, SaveResult.stopped) := by
  unfold saveIncomingPaymentsHistory
  rw [hscan]

theorem save_of_scan_lastId (h : PayHistory) (txs : List RTx) (h2 : PayHistory)
    (a : Option Nat)
    (hscan : scanLoop h none txs = Except.ok (h2, SaveResult.lastId a)) :
    saveIncomingPaymentsHistory h txs = Except.ok (writeBack h2, SaveResult.lastId a) := by
  unfold saveIncomingPaymentsHistory
  rw [hscan]

theorem save_ok_inv (h : PayHistory) (txs : List RTx) (p : PayHistory × SaveResult)
    (heq : saveIncomingPaymentsHistory h txs = Except.ok p) :
    ∃ q, scanLoop h none txs = Except.ok q := by
  unfold saveIncomingPaymentsHistory at heq
  cases hscan : scanLoop h none txs with
  | error e => rw [hscan] at heq; exact Except.noConfusion heq
  | ok q => exact ⟨q, rfl⟩

theorem save_keys (h : PayHistory) (txs : List RTx) (h1 : PayHistory) (r : SaveResult)
    (heq : saveIncomingPaymentsHistory h txs = Except.ok (h1, r)) (k : String)
    (hk : (alookup h.byInvoice k).isSome) : (alookup h1.byInvoice k).isSome := by
  obtain ⟨⟨h2, r2⟩, hscan⟩ := save_ok_inv h txs (h1, r) heq
  have hk2 := scanLoop_keys txs h none h2 r2 hscan k hk
  cases r2 with
  | stopped =>
    have h12 := (save_of_scan_stopped h txs h2 hscan).symm.trans heq
    simp only [Except.ok.injEq, Prod.mk.injEq] at h12
    obtain ⟨rfl, rfl⟩ := h12
    exact hk2
  | lastId a =>
    have h12 := (save_of_scan_lastId h txs h2 a hscan).symm.trans heq
    simp only [Except.ok.injEq, Prod.mk.injEq] at h12
    obtain ⟨rfl, rfl⟩ := h12
    rw [alookup_writeBack]
    cases hlk : alookup h2.byInvoice k with
    | none => rw [hlk] at hk2; cases hk2
    | some w => simp

theorem save_head_hash (h : PayHistory) (t : RTx) (rest : List RTx) (h1 : PayHistory)
    (r : SaveResult)
    (heq : saveIncomingPaymentsHistory h (t :: rest) = Except.ok (h1, r)) :
    rtxHash t ∈ h1.byHash := by
  obtain ⟨⟨h2, r2⟩, hscan⟩ := save_ok_inv h (t :: rest) (h1, r) heq
  have hmem := scanLoop_head_hash_mem h none t rest h2 r2 hscan
  cases r2 with
  | stopped =>
    have h12 := (save_of_scan_stopped h (t :: rest) h2 hscan).symm.trans heq
    simp only [Except.ok.injEq, Prod.mk.injEq] at h12
    obtain ⟨rfl, rfl⟩ := h12
    exact hmem
  | lastId a =>
    have h12 := (save_of_scan_lastId h (t :: rest) h2 a hscan).symm.trans heq
    simp only [Except.ok.injEq, Prod.mk.injEq] at h12
    obtain ⟨rfl, rfl⟩ := h12
    rw [writeBack_byHash]
    exact hmem

theorem save_head_decoders (h : PayHistory) (t : RTx) (rest : List RTx) (h1 : PayHistory)
    (r : SaveResult)
    (heq : saveIncomingPaymentsHistory h (t :: rest) = Except.ok (h1, r)) :
    getTransactionMessageE t = Except.ok (decodedMessage t)
    ∧ getTransactionAmountE t "nem:xem" 6 = Except.ok (decodedAmount t) := by
  obtain ⟨⟨h2, r2⟩, hscan⟩ := save_ok_inv h (t :: rest) (h1, r) heq
  exact scanLoop_ok_head_decoders h none t rest (h2, r2) hscan

/-! ## Accumulator initialisation lemmas -/

theorem initAccumulators_nil (h : PayHistory) : initAccumulators [] h = h := rfl

theorem initAccumulators_cons (inv : RInvoice) (invs : List RInvoice) (h : PayHistory) :
    initAccumulators (inv :: invs) h
      = initAccumulators invs
          (match alookup h.byInvoice (jsToUpperCase inv.number) with
           | some _ => h
           | none =>
             { h with byInvoice :=
                 h.byInvoice ++ [((jsToUpperCase inv.number),
                   { transactions := [], totalPaid := JsAmount.num 0, invoice := inv })] }) := rfl

theorem initAccumulators_isSome_mono (invs : List RInvoice) :
    ∀ h k, (alookup h.byInvoice k).isSome →
      (alookup (initAccumulators invs h).byInvoice k).isSome := by
  induction invs with
  | nil => intro h k hk; exact hk
  | cons inv rest ih =>
    intro h k hk
    rw [initAccumulators_cons]
    cases hkey : alookup h.byInvoice (jsToUpperCase inv.number) with
    | some e =>
      exact ih h k hk
    | none =>
      apply ih
      show (alookup (h.byInvoice ++ [((jsToUpperCase inv.number),
        { transactions := [], totalPaid := JsAmount.num 0, invoice := inv })]) k).isSome
      rw [alookup_append_single]
      cases halt : alookup h.byInvoice k with
      | some w => simp
      | none => rw [halt] at hk; cases hk

theorem initAccumulators_registers (invs : List RInvoice) :
    ∀ h inv, inv ∈ invs →
      (alookup (initAccumulators invs h).byInvoice (jsToUpperCase inv.number)).isSome := by
  induction invs with
  | nil => intro h inv hi; cases hi
  | cons inv0 rest ih =>
    intro h inv hi
    rw [initAccumulators_cons]
    rcases List.mem_cons.mp hi with rfl | hi2
    · apply initAccumulators_isSome_mono
      cases hkey : alookup h.byInvoice (jsToUpperCase inv.number) with
      | some e =>
        show (alookup h.byInvoice (jsToUpperCase inv.number)).isSome
        simp [hkey]
      | none =>
        show (alookup (h.byInvoice ++ [((jsToUpperCase inv.number),
          { transactions := [], totalPaid := JsAmount.num 0, invoice := inv })])
            (jsToUpperCase inv.number)).isSome
        rw [alookup_append_single]
        simp [hkey]
    · exact ih _ inv hi2

theorem initAccumulators_id (invs : List RInvoice) :
    ∀ h, (∀ inv ∈ invs, (alookup h.byInvoice (jsToUpperCase inv.number)).isSome) →
      initAccumulators invs h = h := by
  induction invs with
  | nil => intro h _; rfl
  | cons inv0 rest ih =>
    intro h hall
    rw [initAccumulators_cons]
    have h0 := hall inv0 (by simp)
    cases hkey : alookup h.byInvoice (jsToUpperCase inv0.number) with
    | none => rw [hkey] at h0; cases h0
    | some e =>
      exact ih h (fun inv hi => hall inv (by simp [hi]))

theorem initAccumulators_lookup_fresh (invs : List RInvoice) :
    ∀ h num e, alookup (initAccumulators invs h).byInvoice num = some e →
      alookup h.byInvoice num = some e
      ∨ (e.transactions = [] ∧ e.totalPaid = JsAmount.num 0) := by
  induction invs with
  | nil => intro h num e he; exact Or.inl he
  | cons inv0 rest ih =>
    intro h num e he
    rw [initAccumulators_cons] at he
    cases hkey : alookup h.byInvoice (jsToUpperCase inv0.number) with
    | some w =>
      rw [hkey] at he
      exact ih h num e he
    | none =>
      rw [hkey] at he
      rcases ih _ num e he with hlook | hfresh
      · have hlook2 : alookup (h.byInvoice ++ [((jsToUpperCase inv0.number),
            ({ transactions := [], totalPaid := JsAmount.num 0, invoice := inv0 } : HistEntry))]) num
            = some e := hlook
        rw [alookup_append_single] at hlook2
        cases halt : alookup h.byInvoice num with
        | some w =>
          rw [halt] at hlook2
          exact Or.inl (by simpa using hlook2)
        | none =>
          rw [halt] at hlook2
          by_cases hkn : (jsToUpperCase inv0.number) = num
          · rw [if_pos hkn] at hlook2
            have he2 : ({ transactions := [], totalPaid := JsAmount.num 0, invoice := inv0 } : HistEntry)
                = e := by simpa using hlook2
            rw [← he2]
            exact Or.inr ⟨rfl, rfl⟩
          · rw [if_neg hkn] at hlook2
            exact Option.noConfusion hlook2
      · exact Or.inr hfresh

/-! ## Claim C1 -/

/-- C1 counterexample: the claim states every reconciliation pass sets
each invoice's amountPaid to the sum of its matched transaction
amounts and derives paid/overpaid purely from that sum against the
requested amount. On invoice N1 requesting 1000000 micro-XEM with a
matched plain transfer of 400000 and a matched mosaic transfer worth
600000 (quantity 600000 of nem:xem under a whole-unit multiplier), the
amount decoder returns the toFixed string 600000.000000 for the mosaic
record; totalPaid += string-concatenates it onto the numeric 400000,
so amountPaid becomes the STRING 400000600000.000000 - not the sum
1000000 - and the write-back's ToNumber comparison reads 400000600000,
landing the status on overpaid where the claim, whose sum equals the
requested amount exactly, requires paid. -/
theorem c1_counterexample :
    (saveIncomingPaymentsHistory (initAccumulators [invoiceN1] emptyHistory)
        [txPay400, txPayMosaic600]
      = Except.ok (histN1Mosaic, SaveResult.lastId (some 2)))
    ∧ alookup histN1Mosaic.byInvoice "N1" = some entryN1Mosaic
    ∧ entryN1Mosaic.invoice.amountPaid = JsAmount.str "400000600000.000000"
    ∧ entryN1Mosaic.invoice.amountPaid ≠ JsAmount.num 1000000
    ∧ entryN1Mosaic.invoice.status = "overpaid"
    ∧ entryN1Mosaic.invoice.status ≠ "paid" := by
  refine ⟨by rfl, by rfl, by rfl, by decide, by rfl, by decide⟩

/-- C1 (amended): after a reconciliation pass of
saveIncomingPaymentsHistory over a page of gateway records starting
from freshly initialised accumulators (and completing its scan,
returning lastTrxRead rather than the early false), every accumulator
entry whose matched records - those of transfer or multisig type whose
upper-cased decoded message equals the entry's invoice-number key -
all decode to NUMERIC amounts (no matched record is a mosaic transfer
carrying a nem:xem attachment) has its invoice's amountPaid equal, as
a number, to the sum of those matched amounts, and the status derived
from that sum against the requested amount: equality makes isPaid true
with status paid, and strict excess makes the status overpaid. A
matched nem:xem-mosaic record instead string-concatenates its toFixed
amount into the total (see the counterexample). -/
theorem c1_amended (invoices : List RInvoice) (txs : List RTx)
    (h1 : PayHistory) (a : Option Nat) (num : String) (e : HistEntry)
    (hrun : saveIncomingPaymentsHistory (initAccumulators invoices emptyHistory) txs
        = Except.ok (h1, SaveResult.lastId a))
    (hlook : alookup h1.byInvoice num = some e)
    (hnum : ∀ t ∈ txs, matchesInvoice num t = true → hasNumericAmount t = true) :
    e.invoice.amountPaid = JsAmount.num (matchedSum num txs)
    ∧ (matchedSum num txs = e.invoice.amount →
        e.invoice.isPaid = true ∧ e.invoice.status = "paid")
    ∧ (e.invoice.amount < matchedSum num txs → e.invoice.status = "overpaid") := by
  obtain ⟨⟨h2, r2⟩, hscan⟩ :=
    save_ok_inv _ txs (h1, SaveResult.lastId a) hrun
  cases r2 with
  | stopped =>
    have h12 := (save_of_scan_stopped _ txs h2 hscan).symm.trans hrun
    simp only [Except.ok.injEq, Prod.mk.injEq] at h12
    exact absurd h12.2 (by simp)
  | lastId a2 =>
    have h12 := (save_of_scan_lastId _ txs h2 a2 hscan).symm.trans hrun
    simp only [Except.ok.injEq, Prod.mk.injEq] at h12
    obtain ⟨rfl, _⟩ := h12
    rw [alookup_writeBack, scanLoop_lookup txs _ none h2 a2 hscan num] at hlook
    cases hbase : alookup (initAccumulators invoices emptyHistory).byInvoice num with
    | none => rw [hbase] at hlook; exact Option.noConfusion hlook
    | some e0 =>
      rw [hbase] at hlook
      have hfresh : e0.transactions = [] ∧ e0.totalPaid = JsAmount.num 0 := by
        rcases initAccumulators_lookup_fresh invoices emptyHistory num e0 hbase with hL | hF
        · exact Option.noConfusion hL
        · exact hF
      simp only [Option.map_some', Option.some.injEq] at hlook
      obtain rfl := hlook.symm
      have hmatchedNum : ∀ t ∈ matchedTxs num txs, hasNumericAmount t = true := by
        intro t ht
        have hm := List.mem_filter.mp ht
        exact hnum t hm.1 hm.2
      have hacc : accumulateAmounts e0.totalPaid (matchedTxs num txs)
          = JsAmount.num (matchedSum num txs) := by
        rw [hfresh.2, accumulateAmounts_num (matchedTxs num txs) 0 hmatchedNum]
        simp [matchedSum]
      have hw1 := writeBackEntry_invoice
        ({ e0 with transactions := e0.transactions ++ matchedTxs num txs,
                   totalPaid := accumulateAmounts e0.totalPaid (matchedTxs num txs) })
      have htp : ({ e0 with transactions := e0.transactions ++ matchedTxs num txs,
                            totalPaid := accumulateAmounts e0.totalPaid (matchedTxs num txs) }
            : HistEntry).totalPaid
          = JsAmount.num (matchedSum num txs) := hacc
      have hap := hw1.1
      rw [htp] at hap
      have ham := hw1.2.1
      refine ⟨hap, ?_, ?_⟩
      · intro heqamt
        rw [ham] at heqamt
        have hcond := hw1.2.2 (by rw [htp, ← heqamt, jsGeNat_num]; simp)
        refine ⟨hcond.1, ?_⟩
        rw [hcond.2, htp, ← heqamt, jsGtNat_num]
        simp
      · intro hlt
        rw [ham] at hlt
        have hcond := hw1.2.2 (by
          rw [htp, jsGeNat_num]
          simp only [decide_eq_true_eq]
          exact Nat.le_of_lt hlt)
        rw [hcond.2, htp, jsGtNat_num]
        simp [hlt]

/-- C1 witness: the specification's scenario - invoice N1 over 1000000
micro-XEM, plain transfers of 400000 and 600000 with message n1/N1 -
run through c1_amended: amountPaid the number 1000000, status paid. -/
theorem c1_witness :
    (saveIncomingPaymentsHistory (initAccumulators [invoiceN1] emptyHistory)
        [txPay400, txPay600]
      = Except.ok (histN1Final, SaveResult.lastId (some 2)))
    ∧ alookup histN1Final.byInvoice "N1" = some entryN1Final
    ∧ (entryN1Final.invoice.amountPaid = JsAmount.num (matchedSum "N1" [txPay400, txPay600])
       ∧ (matchedSum "N1" [txPay400, txPay600] = entryN1Final.invoice.amount →
           entryN1Final.invoice.isPaid = true ∧ entryN1Final.invoice.status = "paid")
       ∧ (entryN1Final.invoice.amount < matchedSum "N1" [txPay400, txPay600] →
           entryN1Final.invoice.status = "overpaid")) :=
  ⟨by rfl, by rfl,
   c1_amended [invoiceN1] [txPay400, txPay600] histN1Final (some 2)
     "N1" entryN1Final (by rfl) (by rfl) (by decide)⟩

/-! ## Claim C3 -/

/-- C3: the reconciliation sweep is idempotent - for every prior
accumulator state, every invoice list and every fixed transaction page
returned by the gateway, running the sweep a second time over the
identical page produces exactly the state the first run produced (in
particular every invoice's amountPaid, isPaid and status are
unchanged): the re-run's first record hits the byHash marker set by the
first run and saveIncomingPaymentsHistory returns false before touching
any accumulator entry or invoice. -/
theorem c3_sweep_idempotent (h : PayHistory) (invoices : List RInvoice) (page : List RTx) :
    Except.bind (sweepOnce h invoices page) (fun h1 => sweepOnce h1 invoices page)
      = sweepOnce h invoices page := by
  by_cases hinv : invoices.isEmpty = true
  · simp [sweepOnce, hinv, Except.bind]
  · cases hsave : saveIncomingPaymentsHistory (initAccumulators invoices h) page with
    | error e => simp [sweepOnce, hinv, hsave, Except.bind]
    | ok p =>
      obtain ⟨h1, r⟩ := p
      have hsw : sweepOnce h invoices page = Except.ok h1 := by
        simp [sweepOnce, hinv, hsave]
      rw [hsw]
      show sweepOnce h1 invoices page = Except.ok h1
      have hreg : ∀ inv ∈ invoices, (alookup h1.byInvoice (jsToUpperCase inv.number)).isSome := by
        intro inv hi
        exact save_keys _ page h1 r hsave _ (initAccumulators_registers invoices h inv hi)
      have hinit : initAccumulators invoices h1 = h1 := initAccumulators_id invoices h1 hreg
      cases page with
      | nil =>
        have hs0 : saveIncomingPaymentsHistory (initAccumulators invoices h) []
            = Except.ok (writeBack (initAccumulators invoices h), SaveResult.lastId none) :=
          save_of_scan_lastId _ [] _ none (scanLoop_nil _ none)
        have h12 := hs0.symm.trans hsave
        simp only [Except.ok.injEq, Prod.mk.injEq] at h12
        obtain ⟨hw, _⟩ := h12
        have hsv : saveIncomingPaymentsHistory h1 []
            = Except.ok (writeBack h1, SaveResult.lastId none) :=
          save_of_scan_lastId h1 [] h1 none (scanLoop_nil h1 none)
        have hwb : writeBack h1 = h1 := by rw [← hw, writeBack_idem]
        simp [sweepOnce, hinv, hinit, hsv, hwb]
      | cons t rest =>
        have hdec := save_head_decoders _ t rest h1 r hsave
        have hmem := save_head_hash _ t rest h1 r hsave
        have hscan2 : scanLoop h1 none (t :: rest) = Except.ok (h1, SaveResult.stopped) :=
          scanLoop_cons_seen h1 none t rest _ _ hdec.1 hdec.2 hmem
        have hsv := save_of_scan_stopped h1 (t :: rest) h1 hscan2
        simp [sweepOnce, hinv, hinit, hsv]

end Nem2Pay
